import Mathlib

/-
Verification of the fastchat-app backend core: a shallow embedding of
backend/app/rate_limiter.py, backend/app/websocket_manager.py and the
WebSocket route in backend/app/routers/websocket.py, together with proofs
about the rate limiter, the connection registry, chat-session formation,
message routing, presence broadcasting and the ping/pong liveness path.

Conventions of the embedding:
* Python dicts become association lists (`List (k × v)`) with Python dict
  semantics: lookup finds the first entry, assignment replaces in place or
  appends, deletion filters, iteration follows list (= insertion) order.
* Python sets of user ids become duplicate-free lists built with `sadd`
  (insertion order, as produced by the operations of the code).
* `time.time()` / `datetime.utcnow()` become an explicit `now : Int`
  parameter threaded into each operation.
* `uuid4()` for chat ids / message ids becomes a fresh-id counter carried
  in the state (`nextChat`, `nextMsg`).
* A WebSocket transport is a numeric handle; the environment decides which
  transports raise on send (`wsFail`, distinguishing WebSocketDisconnect
  from generic exceptions).  Delivered frames accumulate in a per-transport
  outbox `wsOut`; `websocket.close` marks the handle in `wsClosed`.
* Exceptions are modelled with `Except`; a `try/except` that swallows the
  exception becomes a total function defined by matching on the result.
-/

set_option linter.unusedSectionVars false

namespace FastChat

/-! ## Python dict / set helpers -/

/-- Python dict lookup `m.get(k)`: value of the first entry with key `k`. -/
def dget {κ α : Type} [BEq κ] (m : List (κ × α)) (k : κ) : Option α :=
  match m.find? (fun p => p.1 == k) with
  | some p => some p.2
  | none => none

/-- Python membership test `k in m`. -/
def dmem {κ α : Type} [BEq κ] (m : List (κ × α)) (k : κ) : Bool :=
  (dget m k).isSome

/-- Python dict assignment `m[k] = v`: replaces the entry in place when the
key is present, otherwise appends a new entry. -/
def dset {κ α : Type} [BEq κ] (m : List (κ × α)) (k : κ) (v : α) : List (κ × α) :=
  if dmem m k then m.map (fun p => if p.1 == k then (k, v) else p) else m ++ [(k, v)]

/-- Python dict deletion `del m[k]`. -/
def ddel {κ α : Type} [BEq κ] (m : List (κ × α)) (k : κ) : List (κ × α) :=
  m.filter (fun p => !(p.1 == k))

/-- Iteration order of the dict keys. -/
def dkeys {κ α : Type} (m : List (κ × α)) : List κ :=
  m.map Prod.fst

/-- Python set insertion `s.add(x)` (no duplicates, insertion order). -/
def sadd (s : List Nat) (x : Nat) : List Nat :=
  if s.contains x then s else s ++ [x]

/-- Python set removal `s.discard(x)` / `s.remove(x)`. -/
def sdiscard (s : List Nat) (x : Nat) : List Nat :=
  s.filter (fun y => !(y == x))

/-! ## Rate limiter (backend/app/rate_limiter.py)

State carried by class `RateLimiter`: one timestamp queue per user per
category plus the time of the last periodic sweep.  The three limits and the
sweep interval are the constants of `__init__`. -/

structure RLState where
  messageStamps : List (Nat × List Int)
  typingStamps : List (Nat × List Int)
  pingStamps : List (Nat × List Int)
  lastCleanup : Int
deriving Repr, DecidableEq

def messageLimit : Nat := 60
def typingLimit : Nat := 10
def pingLimit : Nat := 30
def rlWindow : Int := 60
def cleanupInterval : Int := 300

/-- Fresh rate limiter created at time `t0` (RateLimiter.__init__). -/
def mkRL (t0 : Int) : RLState :=
  ⟨[], [], [], t0⟩

/-- One category loop of `_cleanup_old_timestamps`: pop timestamps older than
the cutoff from the front of each queue and delete users whose queue becomes
empty. -/
def sweepCat (cutoff : Int) (m : List (Nat × List Int)) : List (Nat × List Int) :=
  (m.map (fun p => (p.1, p.2.dropWhile (fun ts => ts < cutoff)))).filter
    (fun p => !p.2.isEmpty)

/-- RateLimiter._cleanup_old_timestamps, run at time `now`. -/
def cleanupOldTimestamps (now : Int) (rl : RLState) : RLState :=
  { messageStamps := sweepCat (now - rlWindow) rl.messageStamps
    typingStamps := sweepCat (now - rlWindow) rl.typingStamps
    pingStamps := sweepCat (now - rlWindow) rl.pingStamps
    lastCleanup := now }

/-- RateLimiter.check_rate_limit.  The periodic sweep runs only when more than
`cleanup_interval` seconds have passed since the previous sweep; afterwards
each category admits exactly when the stored queue is shorter than its limit,
recording the new timestamp on admission and nothing on rejection.  (The
defaultdict creates an empty queue on first access; an empty queue is
indistinguishable from an absent one here, so the model reads with a default
instead.) -/
def checkRateLimit (rl : RLState) (u : Nat) (messageType : String) (now : Int) :
    Bool × RLState :=
  let rl := if now - rl.lastCleanup > cleanupInterval then cleanupOldTimestamps now rl else rl
  if messageType == "MSG" then
    let ts := (dget rl.messageStamps u).getD []
    if messageLimit ≤ ts.length then (false, rl)
    else (true, { rl with messageStamps := dset rl.messageStamps u (ts ++ [now]) })
  else if messageType == "TYPING" then
    let ts := (dget rl.typingStamps u).getD []
    if typingLimit ≤ ts.length then (false, rl)
    else (true, { rl with typingStamps := dset rl.typingStamps u (ts ++ [now]) })
  else if messageType == "PING" then
    let ts := (dget rl.pingStamps u).getD []
    if pingLimit ≤ ts.length then (false, rl)
    else (true, { rl with pingStamps := dset rl.pingStamps u (ts ++ [now]) })
  else (true, rl)

/-- RateLimiter.reset_user_limits. -/
def resetUserLimits (rl : RLState) (u : Nat) : RLState :=
  { rl with
    messageStamps := ddel rl.messageStamps u
    typingStamps := ddel rl.typingStamps u
    pingStamps := ddel rl.pingStamps u }

/-- Modelled from the spec: the per-call evict-then-admit sliding window that
the spec describes for allow(id, message) — each call first evicts entries
older than 60 seconds from the front of the queue, then accepts (recording
the new timestamp) when the remaining count is below the limit and otherwise
rejects without recording.  Used only as the reference point the code is
compared against. -/
def allowSpecMessage (rl : RLState) (u : Nat) (now : Int) : Bool × RLState :=
  let ts := ((dget rl.messageStamps u).getD []).dropWhile (fun t => t < now - rlWindow)
  if messageLimit ≤ ts.length then
    (false, { rl with messageStamps := dset rl.messageStamps u ts })
  else
    (true, { rl with messageStamps := dset rl.messageStamps u (ts ++ [now]) })

/-- Limiter state after a burst of 60 accepted messages from user 0 at time 0,
starting from a limiter created at time 0. -/
def rlAfterBurst : RLState :=
  (List.replicate 60 ()).foldl (fun rl _ => (checkRateLimit rl 0 "MSG" 0).2) (mkRL 0)

/-! ## Frames and manager state (backend/app/websocket_manager.py) -/

/-- Outbound frames and handler error replies, after JSON serialization is
abstracted away.  Error replies carry the error_code and message fields of
ErrorMessage. -/
inductive Frame
  | helloAck (userId : Nat)
  | presence (users : List (Nat × String × Bool)) (action : String)
  | chatOpened (chatId : Nat) (participants : List Nat) (targetUserId : Nat)
      (targetDisplayName : String)
  | msg (messageId : Nat) (content : String) (senderId : Nat) (senderName : String)
      (timestamp : Int)
  | msgAck (messageId : Nat) (status : String) (timestamp : Int)
  | typingFrame (userId : Nat) (displayName : String) (isTyping : Bool)
  | pong
  | err (errorCode : String) (message : String)
deriving Repr, DecidableEq

/-- Exception a raw transport send can raise: fastapi's WebSocketDisconnect or
any other exception. -/
inductive WsExc
  | disconnect
  | generic
deriving Repr, DecidableEq

/-- State of class ConnectionManager, together with the transport environment:
per-transport outboxes (`wsOut`), close marks (`wsClosed`) and the set of
transports whose send raises (`wsFail`).  Fields `_ping_task`, `_cleanup_task`
and `_running` only manage background scheduling and carry no shared data. -/
structure MState where
  active : List (Nat × Nat)
  sessionUsers : List (String × Nat)
  userInfo : List (Nat × String)
  chatSessions : List (Nat × List Nat)
  userChats : List (Nat × Nat)
  typingUsers : List (Nat × List Nat)
  lastPing : List (Nat × Int)
  connectionActivity : List (Nat × Int)
  nextChat : Nat
  nextMsg : Nat
  wsOut : List (Nat × List Frame)
  wsClosed : List (Nat × String)
  wsFail : List (Nat × WsExc)
deriving Repr, DecidableEq

/-- Freshly constructed manager. -/
def initState : MState :=
  ⟨[], [], [], [], [], [], [], [], 0, 0, [], [], []⟩

def maxMessageLength : Nat := 1000

/-- Raw transport send (`websocket.send_text`): raises when the environment
marks the transport as failing, otherwise appends the frame to the transport's
outbox. -/
def wsSendRaw (st : MState) (ws : Nat) (f : Frame) : Except WsExc MState :=
  match dget st.wsFail ws with
  | some e => .error e
  | none => .ok { st with wsOut := dset st.wsOut ws (((dget st.wsOut ws).getD []) ++ [f]) }

def removeActive (st : MState) (u : Nat) : MState :=
  { st with active := ddel st.active u }

/-- Typing-indicator part of the cleanup loops: remove `u` from every typing
set and delete the sets that become empty because of it. -/
def typingRemove (m : List (Nat × List Nat)) (u : Nat) : List (Nat × List Nat) :=
  m.filterMap (fun p =>
    if p.2.contains u then
      let s := sdiscard p.2 u
      if s.isEmpty then none else some (p.1, s)
    else some p)

/-- ConnectionManager._cleanup_disconnected_user (the rate-limiter reset and
the metrics call act on state outside this structure). -/
def cleanupDisconnectedUser (st : MState) (u : Nat) : MState :=
  { st with
    userInfo := ddel st.userInfo u
    lastPing := ddel st.lastPing u
    sessionUsers := st.sessionUsers.filter (fun p => !(p.2 == u))
    typingUsers := typingRemove st.typingUsers u }

/-- ConnectionManager.send_personal_message: look up the recipient's
transport and send, catching WebSocketDisconnect (drop the connection and run
_cleanup_disconnected_user) and every other exception (drop the connection). -/
def sendPersonalMessage (st : MState) (f : Frame) (u : Nat) : MState :=
  match dget st.active u with
  | none => st
  | some ws =>
    match wsSendRaw st ws f with
    | .ok st1 => st1
    | .error .disconnect => cleanupDisconnectedUser (removeActive st u) u
    | .error .generic => removeActive st u

/-- Except-valued view of send_personal_message, exposing the caught
exceptions of the underlying transport send: an uncaught exception would show
up as an `.error` result. -/
def sendPersonalMessageE (st : MState) (f : Frame) (u : Nat) : Except WsExc MState :=
  match dget st.active u with
  | none => .ok st
  | some ws =>
    match wsSendRaw st ws f with
    | .ok st1 => .ok st1
    | .error .disconnect => .ok (cleanupDisconnectedUser (removeActive st u) u)
    | .error .generic => .ok (removeActive st u)

/-- Online-users list computed for the newly connected user in
broadcast_presence_update (action connect): every identity other than the new
one that is both in user_info and currently connected, in user_info order. -/
def presenceSnapshot (st : MState) (u : Nat) : List (Nat × String × Bool) :=
  st.userInfo.filterMap (fun p =>
    if dmem st.active p.1 && !(p.1 == u) then some (p.1, p.2, true) else none)

/-- Delivery loop shared by the broadcast paths: send `f` to every listed
recipient except `u`. -/
def sendEach (st : MState) (f : Frame) (u : Nat) (recips : List Nat) : MState :=
  recips.foldl (fun s v => if v == u then s else sendPersonalMessage s f v) st

/-- ConnectionManager.broadcast_presence_update. -/
def broadcastPresenceUpdate (st : MState) (action : String) (u : Nat)
    (displayName : String) : MState :=
  if action == "connect" then
    let snap := presenceSnapshot st u
    let st1 := sendPersonalMessage st (.presence snap "connect") u
    if 1 < st1.active.length then
      sendEach st1 (.presence [(u, displayName, true)] "connect") u (dkeys st1.active)
    else st1
  else if action == "disconnect" then
    sendEach st (.presence [(u, displayName, false)] "disconnect") u (dkeys st.active)
  else st

/-- The `old_websocket.close(...)` call of connect, with its try/except pass:
a close that raises leaves no mark. -/
def closeTransport (st : MState) (ws : Nat) (reason : String) : MState :=
  if dmem st.wsFail ws then st else { st with wsClosed := dset st.wsClosed ws reason }

/-- ConnectionManager.connect_without_broadcast.  The
restore_user_chat_session coroutine is scheduled with asyncio.create_task and
runs later; it appears as its own step in the transition relation below. -/
def connectWithoutBroadcast (st : MState) (ws : Nat) (u : Nat) (displayName : String)
    (sessionId : Option String) (now : Int) : MState :=
  let st1 := { st with
    active := dset st.active u ws
    userInfo := dset st.userInfo u displayName
    lastPing := dset st.lastPing u now
    connectionActivity := dset st.connectionActivity u now }
  match sessionId with
  | some sid => { st1 with sessionUsers := dset st1.sessionUsers sid u }
  | none => st1

/-- ConnectionManager.connect: close a previous transport of the same user,
register without broadcasting, then broadcast presence. -/
def connectOp (st : MState) (ws : Nat) (u : Nat) (displayName : String) (now : Int) :
    MState :=
  let st0 := match dget st.active u with
    | some old => closeTransport st old "New connection from same user"
    | none => st
  let st1 := connectWithoutBroadcast st0 ws u displayName none now
  broadcastPresenceUpdate st1 "connect" u displayName

/-- ConnectionManager.restore_user_chat_session: the first chat session
containing the user becomes the user's active chat again, and a CHAT_OPENED
frame is re-sent when a connected other participant exists. -/
def restoreUserChatSession (st : MState) (u : Nat) : MState :=
  match st.chatSessions.find? (fun p => p.2.contains u) with
  | none => st
  | some cps =>
    let st1 := { st with userChats := dset st.userChats u cps.1 }
    match cps.2.find? (fun v => !(v == u) && dmem st1.active v) with
    | none => st1
    | some w =>
      sendPersonalMessage st1
        (.chatOpened cps.1 [u, w] w ((dget st1.userInfo w).getD "Unknown User")) u

/-- ConnectionManager.disconnect.  The delayed_cleanup_user_chats coroutine is
scheduled as a task; it appears as its own step below, guarded exactly as in
the code by the user still being offline when the delay elapses. -/
def disconnectOp (st : MState) (u : Nat) : MState :=
  match dget st.active u with
  | none => st
  | some _ =>
    let displayName := (dget st.userInfo u).getD "Unknown"
    let st1 := removeActive st u
    let st2 := cleanupDisconnectedUser st1 u
    broadcastPresenceUpdate st2 "disconnect" u displayName

/-- ConnectionManager.cleanup_user_chats: drop the user's typing entries, then
remove the user from the pointed-at chat, tearing the session down when fewer
than two participants remain, and drop the active-chat pointer. -/
def cleanupUserChats (st : MState) (u : Nat) : MState :=
  let st1 := { st with typingUsers := typingRemove st.typingUsers u }
  match dget st1.userChats u with
  | none => st1
  | some c =>
    let st2 := match dget st1.chatSessions c with
      | none => st1
      | some ps =>
        let ps1 := sdiscard ps u
        if ps1.length < 2 then { st1 with chatSessions := ddel st1.chatSessions c }
        else { st1 with chatSessions := dset st1.chatSessions c ps1 }
    { st2 with userChats := ddel st2.userChats u }

/-- ConnectionManager.create_or_get_chat: the first existing session
containing both users (re-pointing both users at it), otherwise a fresh chat
id with both participants. -/
def createOrGetChat (st : MState) (user1 : Nat) (user2 : Nat) : Nat × MState :=
  match st.chatSessions.find? (fun p => p.2.contains user1 && p.2.contains user2) with
  | some p =>
    (p.1, { st with userChats := dset (dset st.userChats user1 p.1) user2 p.1 })
  | none =>
    let c := st.nextChat
    (c, { st with
      chatSessions := dset st.chatSessions c (sadd (sadd [] user1) user2)
      userChats := dset (dset st.userChats user1 c) user2 c
      nextChat := c + 1 })

/-- ConnectionManager.send_to_chat. -/
def sendToChat (st : MState) (c : Nat) (f : Frame) (excludeUser : Option Nat) : MState :=
  match dget st.chatSessions c with
  | none => st
  | some ps =>
    ps.foldl (fun s v => if some v == excludeUser then s else sendPersonalMessage s f v) st

/-- ConnectionManager.send_to_chat_with_ack: deliver to every participant
except the excluded one, reporting false when the chat is unknown or some
recipient is no longer connected after its send (send_personal_message never
raises, so the per-recipient except-branch of the code is dead). -/
def sendToChatWithAck (st : MState) (c : Nat) (f : Frame) (excludeUser : Option Nat) :
    Bool × MState :=
  match dget st.chatSessions c with
  | none => (false, st)
  | some ps =>
    ps.foldl (fun acc v =>
      if some v == excludeUser then acc
      else
        let s1 := sendPersonalMessage acc.2 f v
        (acc.1 && dmem s1.active v, s1)) (true, st)

/-- Result of handle_open_chat.  The Python function returns None after
reporting the chat id through CHAT_OPENED frames (also pushed to the outboxes
here); the model surfaces that id as `opened` so theorems can name it. -/
inductive OpenOut
  | errFrame (f : Frame)
  | opened (chatId : Nat)
deriving Repr, DecidableEq

/-- Tail of handle_open_chat past the already-in-chat check: create or fetch
the chat, make sure both users are members and both pointers are set, then
send CHAT_OPENED to both parties. -/
def handleOpenChatCreate (st : MState) (u : Nat) (target : Nat)
    (targetDisplayName : String) : OpenOut × MState :=
  let cs := createOrGetChat st u target
  let c := cs.1
  let st1 := cs.2
  let st2 := if dmem st1.chatSessions c then st1
             else { st1 with chatSessions := dset st1.chatSessions c [] }
  let ps := (dget st2.chatSessions c).getD []
  let st3 := { st2 with chatSessions := dset st2.chatSessions c (sadd (sadd ps u) target) }
  let st4 := { st3 with userChats := dset (dset st3.userChats u c) target c }
  let fr := Frame.chatOpened c [u, target] target targetDisplayName
  let st5 := sendPersonalMessage st4 fr u
  let st6 := sendPersonalMessage st5 fr target
  (.opened c, st6)

/-- ConnectionManager.handle_open_chat for an already-parsed OPEN_CHAT
frame. -/
def handleOpenChat (st : MState) (u : Nat) (target : Nat) (targetDisplayName : String) :
    OpenOut × MState :=
  if !(dmem st.active target) then
    (.errFrame (.err "USER_NOT_FOUND" "Target user is not online"), st)
  else
    match dget st.userChats u with
    | some e =>
      match dget st.chatSessions e with
      | some ps =>
        if ps.contains target then
          (.opened e,
            sendPersonalMessage st (.chatOpened e [u, target] target targetDisplayName) u)
        else handleOpenChatCreate st u target targetDisplayName
      | none => handleOpenChatCreate st u target targetDisplayName
    | none => handleOpenChatCreate st u target targetDisplayName

/-- Body of handle_chat_message once the chat id is resolved: membership
repair, content validation, fan-out and acknowledgment. -/
def handleChatMessageBody (st : MState) (u : Nat) (c : Nat) (contentOpt : Option String)
    (now : Int) : Option Frame × MState :=
  let st1 := if dmem st.chatSessions c then st
             else { st with chatSessions := dset st.chatSessions c [] }
  let ps := (dget st1.chatSessions c).getD []
  let st2 := if ps.contains u then st1
             else { st1 with chatSessions := dset st1.chatSessions c (sadd ps u) }
  let content := contentOpt.getD ""
  if content.isEmpty then
    (some (.err "VALIDATION" "Message content cannot be empty"), st2)
  else if maxMessageLength < content.length then
    (some (.err "VALIDATION" "Message content cannot exceed 1000 characters"), st2)
  else
    let senderName := (dget st2.userInfo u).getD "Unknown"
    let mid := st2.nextMsg
    let st3 := { st2 with nextMsg := mid + 1 }
    let payload := Frame.msg mid content u senderName now
    let ds := sendToChatWithAck st3 c payload (some u)
    let ack := Frame.msgAck mid (if ds.1 then "delivered" else "pending") now
    (none, sendPersonalMessage ds.2 ack u)

/-- ConnectionManager.handle_chat_message for an already-parsed MSG frame.
`contentOpt = none` models a frame without a content field; `data.get` turns
it into the empty string.  A sender without an active-chat pointer is paired
with the first other connected user, or refused with NOT_IN_CHAT when there is
none. -/
def handleChatMessage (st : MState) (u : Nat) (contentOpt : Option String) (now : Int) :
    Option Frame × MState :=
  match dget st.userChats u with
  | some c => handleChatMessageBody st u c contentOpt now
  | none =>
    match (dkeys st.active).find? (fun v => !(v == u)) with
    | none =>
      (some (.err "NOT_IN_CHAT" "No other users online to chat with"), st)
    | some other =>
      let cs := createOrGetChat st u other
      handleChatMessageBody cs.2 u cs.1 contentOpt now

/-- ConnectionManager.handle_typing for an already-parsed TYPING frame. -/
def handleTyping (st : MState) (u : Nat) (isTyping : Bool) : Option Frame × MState :=
  match dget st.userChats u with
  | none => (some (.err "NOT_IN_CHAT" "You are not currently in a chat"), st)
  | some c =>
    match dget st.chatSessions c with
    | none => (some (.err "NOT_IN_CHAT" "You are not a participant in this chat"), st)
    | some ps =>
      if !(ps.contains u) then
        (some (.err "NOT_IN_CHAT" "You are not a participant in this chat"), st)
      else
        let fr := Frame.typingFrame u ((dget st.userInfo u).getD "Unknown") isTyping
        let cur := (dget st.typingUsers c).getD []
        let st1 :=
          if isTyping then { st with typingUsers := dset st.typingUsers c (sadd cur u) }
          else
            let s := sdiscard cur u
            if s.isEmpty then { st with typingUsers := ddel st.typingUsers c }
            else { st with typingUsers := dset st.typingUsers c s }
        (none, sendToChat st1 c fr (some u))

/-- ConnectionManager.handle_ping: refresh last_ping, reply PONG. -/
def handlePing (st : MState) (u : Nat) (now : Int) : Option Frame × MState :=
  let st1 := { st with lastPing := dset st.lastPing u now }
  (none, sendPersonalMessage st1 .pong u)

/-- ConnectionManager.handle_pong: refresh last_ping, no reply. -/
def handlePong (st : MState) (u : Nat) (now : Int) : Option Frame × MState :=
  (none, { st with lastPing := dset st.lastPing u now })

/-! ## WebSocket route (backend/app/routers/websocket.py) -/

/-- HELLO handshake path of websocket_endpoint: register through
connect_without_broadcast, send HELLO_ACK on the raw transport, then broadcast
presence; an exception from the HELLO_ACK send propagates to the outer handler
whose finally-block disconnects the user. -/
def websocketHelloPath (st : MState) (ws : Nat) (u : Nat) (displayName : String)
    (sessionId : Option String) (now : Int) : MState :=
  let st1 := connectWithoutBroadcast st ws u displayName sessionId now
  match wsSendRaw st1 ws (.helloAck u) with
  | .ok st2 => broadcastPresenceUpdate st2 "connect" u displayName
  | .error _ => disconnectOp st1 u

/-- PING branch of the established-connection receive loop of
websocket_endpoint: reply PONG on the raw transport and continue.  A generic
send failure is answered by the loop's INTERNAL_ERROR handler; a
WebSocketDisconnect breaks the loop (the finally-block disconnect is a
separate step).  The manager's handle_ping is never reached on this path. -/
def routerPingBranch (st : MState) (ws : Nat) : MState :=
  match wsSendRaw st ws .pong with
  | .ok st1 => st1
  | .error .disconnect => st
  | .error .generic =>
    match wsSendRaw st ws (.err "INTERNAL_ERROR" "Internal server error") with
    | .ok st1 => st1
    | .error _ => st

/-- PONG branch of the receive loop: the frame is dropped with no action. -/
def routerPongBranch (st : MState) : MState :=
  st

/-! ## Transition relation -/

/-- One event of the system: each operation of the code that mutates shared
manager state, plus the environment action of a transport starting to fail.
Coroutines scheduled with asyncio.create_task (chat-session restore, delayed
chat cleanup) appear as their own steps, the cleanup guarded exactly as in
delayed_cleanup_user_chats. -/
inductive Step : MState → MState → Prop
  | hello (st : MState) (ws u : Nat) (dn : String) (sid : Option String) (now : Int) :
      Step st (websocketHelloPath st ws u dn sid now)
  | fullConnect (st : MState) (ws u : Nat) (dn : String) (now : Int) :
      Step st (connectOp st ws u dn now)
  | restore (st : MState) (u : Nat) :
      Step st (restoreUserChatSession st u)
  | disconnect (st : MState) (u : Nat) :
      Step st (disconnectOp st u)
  | delayedCleanup (st : MState) (u : Nat) (h : dmem st.active u = false) :
      Step st (cleanupUserChats st u)
  | openChat (st : MState) (u target : Nat) (dn : String) :
      Step st (handleOpenChat st u target dn).2
  | chatMessage (st : MState) (u : Nat) (content : Option String) (now : Int) :
      Step st (handleChatMessage st u content now).2
  | typing (st : MState) (u : Nat) (b : Bool) :
      Step st (handleTyping st u b).2
  | ping (st : MState) (u : Nat) (now : Int) :
      Step st (handlePing st u now).2
  | pongStep (st : MState) (u : Nat) (now : Int) :
      Step st (handlePong st u now).2
  | routerPing (st : MState) (ws : Nat) :
      Step st (routerPingBranch st ws)
  | transportFail (st : MState) (ws : Nat) (e : WsExc) :
      Step st { st with wsFail := dset st.wsFail ws e }

/-- States reachable from the freshly constructed manager. -/
inductive Reachable : MState → Prop
  | init : Reachable initState
  | step {s t : MState} : Reachable s → Step s t → Reachable t

/-! ## Association-list and set lemmas -/

section DictLemmas

variable {κ α : Type} [BEq κ] [LawfulBEq κ]

theorem dget_nil (k : κ) : dget ([] : List (κ × α)) k = none := rfl

theorem dget_cons (a : κ) (b : α) (m : List (κ × α)) (k : κ) :
    dget ((a, b) :: m) k = if a == k then some b else dget m k := by
  by_cases h : (a == k) = true
  · rw [if_pos h]
    unfold dget
    rw [List.find?_cons_of_pos _ (by simpa using h)]
  · rw [if_neg h]
    unfold dget
    rw [List.find?_cons_of_neg _ (by simpa using h)]

theorem dget_append (m1 m2 : List (κ × α)) (k : κ) :
    dget (m1 ++ m2) k = ((dget m1 k).map some).getD (dget m2 k) := by
  induction m1 with
  | nil => simp [dget_nil]
  | cons p m ih =>
    obtain ⟨a, b⟩ := p
    rw [List.cons_append, dget_cons, dget_cons]
    by_cases h : (a == k) = true
    · simp [h]
    · simp [h, ih]

theorem dget_map_replace_self (m : List (κ × α)) (k : κ) (v : α) (h : dmem m k = true) :
    dget (m.map (fun p => if p.1 == k then (k, v) else p)) k = some v := by
  induction m with
  | nil => simp [dmem, dget_nil] at h
  | cons p m ih =>
    obtain ⟨a, b⟩ := p
    by_cases ha : (a == k) = true
    · simp only [List.map_cons, ha, if_pos]
      rw [dget_cons, if_pos (by simp)]
    · simp only [List.map_cons, ha, if_neg, Bool.false_eq_true, not_false_iff]
      rw [dget_cons, if_neg ha]
      apply ih
      simp only [dmem, dget_cons, ha, if_neg, Bool.false_eq_true, not_false_iff] at h
      exact h

theorem dget_map_replace_ne (m : List (κ × α)) (k k' : κ) (v : α) (h : k' ≠ k) :
    dget (m.map (fun p => if p.1 == k then (k, v) else p)) k' = dget m k' := by
  induction m with
  | nil => simp
  | cons p m ih =>
    obtain ⟨a, b⟩ := p
    by_cases ha : (a == k) = true
    · have hak : a = k := by simpa using ha
      simp only [List.map_cons, ha, if_pos]
      rw [dget_cons, dget_cons, if_neg (by simp [Ne.symm h]), if_neg, ih]
      subst hak
      simp [Ne.symm h]
    · simp only [List.map_cons, ha, Bool.false_eq_true, not_false_iff, if_neg]
      rw [dget_cons, dget_cons, ih]

theorem dget_dset_self (m : List (κ × α)) (k : κ) (v : α) :
    dget (dset m k v) k = some v := by
  unfold dset
  by_cases h : dmem m k = true
  · rw [if_pos h]
    exact dget_map_replace_self m k v h
  · rw [if_neg h, dget_append]
    have : dget m k = none := by
      simp only [dmem] at h
      cases hg : dget m k
      · rfl
      · simp [hg] at h
    simp [this, dget_cons]

theorem dget_dset_ne (m : List (κ × α)) (k k' : κ) (v : α) (h : k' ≠ k) :
    dget (dset m k v) k' = dget m k' := by
  unfold dset
  by_cases hm : dmem m k = true
  · rw [if_pos hm]
    exact dget_map_replace_ne m k k' v h
  · rw [if_neg hm, dget_append, dget_cons]
    have hb : (k == k') = false := by
      simp [Ne.symm h]
    rw [if_neg (by simp [hb])]
    cases hg : dget m k' <;> simp [dget_nil]

theorem dget_ddel_self (m : List (κ × α)) (k : κ) : dget (ddel m k) k = none := by
  have hf : (ddel m k).find? (fun p => p.1 == k) = none := by
    rw [List.find?_eq_none]
    intro p hp
    have := List.of_mem_filter hp
    simp only [Bool.not_eq_true'] at this
    simp [this]
  unfold dget
  rw [hf]

theorem dget_ddel_ne (m : List (κ × α)) (k k' : κ) (h : k' ≠ k) :
    dget (ddel m k) k' = dget m k' := by
  induction m with
  | nil => rfl
  | cons p m ih =>
    obtain ⟨a, b⟩ := p
    have hstep : ddel ((a, b) :: m) k
        = if (!(a == k)) = true then (a, b) :: ddel m k else ddel m k := by
      simp [ddel, List.filter_cons]
    by_cases ha : (a == k) = true
    · rw [hstep, if_neg (by simp [ha]), ih, dget_cons]
      have hak : a = k := by simpa using ha
      rw [if_neg (by subst hak; simp [Ne.symm h])]
    · rw [hstep, if_pos (by simp [ha]), dget_cons, dget_cons, ih]

theorem mem_of_dget {m : List (κ × α)} {k : κ} {v : α} (h : dget m k = some v) :
    (k, v) ∈ m := by
  unfold dget at h
  cases hf : m.find? (fun p => p.1 == k) with
  | none => rw [hf] at h; cases h
  | some p =>
    rw [hf] at h
    obtain ⟨a, b⟩ := p
    have hp := List.find?_some hf
    have hm := List.mem_of_find?_eq_some hf
    simp only at hp h
    have : a = k := by simpa using hp
    cases h
    subst this
    exact hm

theorem dget_eq_some_of_mem {m : List (κ × α)} {k : κ} {v : α}
    (hnd : (dkeys m).Nodup) (h : (k, v) ∈ m) : dget m k = some v := by
  induction m with
  | nil => cases h
  | cons p m ih =>
    obtain ⟨a, b⟩ := p
    rw [dget_cons]
    rcases List.mem_cons.mp h with heq | hmem
    · cases heq
      simp
    · have hak : a ≠ k := by
        intro hak
        subst hak
        have : a ∈ dkeys m := by
          simp only [dkeys]
          exact List.mem_map.mpr ⟨(a, v), hmem, rfl⟩
        simp only [dkeys, List.map_cons, List.nodup_cons] at hnd
        exact hnd.1 this
      rw [if_neg (by simp [hak])]
      exact ih (by simpa [dkeys] using (List.nodup_cons.mp (by simpa [dkeys] using hnd)).2) hmem

theorem dget_isSome_iff {m : List (κ × α)} {k : κ} :
    (dget m k).isSome = true ↔ k ∈ dkeys m := by
  constructor
  · intro h
    obtain ⟨v, hv⟩ := Option.isSome_iff_exists.mp h
    exact List.mem_map.mpr ⟨(k, v), mem_of_dget hv, rfl⟩
  · intro h
    obtain ⟨⟨a, b⟩, ham, hae⟩ := List.mem_map.mp h
    simp only at hae
    subst hae
    unfold dget
    cases hf : m.find? (fun p => p.1 == a) with
    | some p => simp
    | none =>
      rw [List.find?_eq_none] at hf
      have := hf (a, b) ham
      simp at this

theorem dmem_eq_true_iff {m : List (κ × α)} {k : κ} :
    dmem m k = true ↔ k ∈ dkeys m := by
  unfold dmem
  exact dget_isSome_iff

theorem dkeys_dset (m : List (κ × α)) (k : κ) (v : α) :
    dkeys (dset m k v) = if dmem m k then dkeys m else dkeys m ++ [k] := by
  unfold dset
  by_cases h : dmem m k = true
  · rw [if_pos h, if_pos h]
    unfold dkeys
    rw [List.map_map]
    apply List.map_congr_left
    intro p _
    obtain ⟨a, b⟩ := p
    by_cases ha : (a == k) = true
    · have : a = k := by simpa using ha
      simp [ha, this]
    · simp [ha]
  · rw [if_neg h, if_neg h]
    simp [dkeys]

theorem dkeys_ddel_sublist (m : List (κ × α)) (k : κ) :
    (dkeys (ddel m k)).Sublist (dkeys m) :=
  (List.filter_sublist m).map Prod.fst

end DictLemmas

theorem mem_sadd {s : List Nat} {x y : Nat} : x ∈ sadd s y ↔ x = y ∨ x ∈ s := by
  unfold sadd
  by_cases h : s.contains y = true
  · have hy : y ∈ s := by simpa using h
    simp only [h, if_pos]
    constructor
    · intro hx; exact Or.inr hx
    · rintro (rfl | hx)
      · exact hy
      · exact hx
  · simp only [h, Bool.false_eq_true, not_false_iff, if_neg, List.mem_append,
      List.mem_singleton]
    tauto

theorem sadd_ne_nil (s : List Nat) (x : Nat) : sadd s x ≠ [] := by
  unfold sadd
  by_cases h : s.contains x = true
  · have hy : x ∈ s := by simpa using h
    simp only [h, if_pos]
    exact List.ne_nil_of_mem hy
  · rw [if_neg h]
    intro heq
    have := List.append_eq_nil.mp heq
    cases this.2

theorem mem_sdiscard {s : List Nat} {x y : Nat} : x ∈ sdiscard s y ↔ x ∈ s ∧ x ≠ y := by
  unfold sdiscard
  simp [List.mem_filter]

theorem sadd_of_mem {s : List Nat} {x : Nat} (h : x ∈ s) : sadd s x = s := by
  unfold sadd
  rw [if_pos (by simpa using h)]

section DictLemmas2

variable {κ α : Type} [BEq κ] [LawfulBEq κ]

theorem dget_none_iff_not_mem_keys {m : List (κ × α)} {k : κ} :
    dget m k = none ↔ k ∉ dkeys m := by
  constructor
  · intro h hk
    have := dget_isSome_iff.mpr hk
    rw [h] at this
    cases this
  · intro h
    cases hg : dget m k with
    | none => rfl
    | some v =>
      exact absurd (dget_isSome_iff.mp (by rw [hg]; rfl)) h

theorem dkeys_cons (a : κ) (b : α) (m : List (κ × α)) :
    dkeys ((a, b) :: m) = a :: dkeys m := rfl

theorem map_replace_id {m : List (κ × α)} {k : κ} (v : α) (h : k ∉ dkeys m) :
    m.map (fun p => if p.1 == k then (k, v) else p) = m := by
  induction m with
  | nil => rfl
  | cons p m ih =>
    obtain ⟨a, b⟩ := p
    rw [dkeys_cons, List.mem_cons] at h
    push_neg at h
    have hak : ¬ ((a == k) = true) := by
      intro hc
      exact h.1 (((by simpa using hc : a = k)) ▸ rfl)
    simp only [List.map_cons, if_neg hak]
    rw [ih h.2]

theorem dset_dset_same (m : List (κ × α)) (k : κ) (v w : α) :
    dset (dset m k v) k w = dset m k w := by
  unfold dset
  by_cases h : dmem m k = true
  · have h2 : dmem (m.map (fun p => if p.1 == k then (k, v) else p)) k = true := by
      simp only [dmem]
      rw [dget_map_replace_self m k v h]
      rfl
    rw [if_pos h, if_pos h2, if_pos h, List.map_map]
    apply List.map_congr_left
    intro p _
    obtain ⟨a, b⟩ := p
    by_cases ha : (a == k) = true
    · simp [ha]
    · simp [ha]
  · have h2 : dmem (m ++ [(k, v)]) k = true := by
      simp only [dmem]
      rw [dget_append]
      cases hg : dget m k with
      | none => simp [dget_cons]
      | some x => simp [dmem, hg] at h
    rw [if_neg h, if_pos h2, if_neg h, List.map_append]
    congr 1
    · exact map_replace_id w (fun hk => h (dmem_eq_true_iff.mpr hk))
    · simp

theorem map_replace_of_dget {m : List (κ × α)} {k : κ} {v : α}
    (hnd : (dkeys m).Nodup) (h : dget m k = some v) :
    m.map (fun p => if p.1 == k then (k, v) else p) = m := by
  induction m with
  | nil => cases h
  | cons p m ih =>
    obtain ⟨a, b⟩ := p
    rw [dkeys_cons, List.nodup_cons] at hnd
    rw [dget_cons] at h
    by_cases ha : (a == k) = true
    · rw [if_pos ha] at h
      injection h with hbv
      have hak : a = k := by simpa using ha
      subst hak
      subst hbv
      simp only [List.map_cons, if_pos ha]
      rw [map_replace_id b hnd.1]
    · rw [if_neg ha] at h
      simp only [List.map_cons, if_neg ha]
      rw [ih hnd.2 h]

theorem dset_eq_self {m : List (κ × α)} {k : κ} {v : α}
    (hnd : (dkeys m).Nodup) (h : dget m k = some v) : dset m k v = m := by
  have hm : dmem m k = true := by simp [dmem, h]
  unfold dset
  rw [if_pos hm]
  exact map_replace_of_dget hnd h

end DictLemmas2

/-! ## The delivery layer never touches the chat bookkeeping -/

/-- Chat bookkeeping that the session invariants depend on. -/
def chatCore (st : MState) : List (Nat × List Nat) × List (Nat × Nat) × Nat :=
  (st.chatSessions, st.userChats, st.nextChat)

theorem chatCore_sessions {s t : MState} (h : chatCore s = chatCore t) :
    s.chatSessions = t.chatSessions :=
  congrArg (fun p => p.1) h

theorem chatCore_userChats {s t : MState} (h : chatCore s = chatCore t) :
    s.userChats = t.userChats :=
  congrArg (fun p => p.2.1) h

theorem chatCore_nextChat {s t : MState} (h : chatCore s = chatCore t) :
    s.nextChat = t.nextChat :=
  congrArg (fun p => p.2.2) h

theorem sendPersonalMessage_chatCore (st : MState) (f : Frame) (u : Nat) :
    chatCore (sendPersonalMessage st f u) = chatCore st := by
  cases hg : dget st.active u with
  | none => simp [sendPersonalMessage, hg]
  | some ws =>
    cases hf : dget st.wsFail ws with
    | none => simp [sendPersonalMessage, wsSendRaw, hg, hf, chatCore]
    | some e =>
      cases e <;>
        simp [sendPersonalMessage, wsSendRaw, hg, hf, chatCore, removeActive,
          cleanupDisconnectedUser]

theorem sendEach_cons (st : MState) (f : Frame) (u r : Nat) (rs : List Nat) :
    sendEach st f u (r :: rs)
      = sendEach (if (r == u) = true then st else sendPersonalMessage st f r) f u rs := rfl

theorem sendEach_chatCore (f : Frame) (u : Nat) (rs : List Nat) (st : MState) :
    chatCore (sendEach st f u rs) = chatCore st := by
  induction rs generalizing st with
  | nil => rfl
  | cons r rs ih =>
    rw [sendEach_cons]
    by_cases hr : (r == u) = true
    · rw [if_pos hr, ih]
    · rw [if_neg hr, ih, sendPersonalMessage_chatCore]

theorem broadcastPresenceUpdate_chatCore (st : MState) (a : String) (u : Nat)
    (dn : String) : chatCore (broadcastPresenceUpdate st a u dn) = chatCore st := by
  unfold broadcastPresenceUpdate
  by_cases h1 : (a == "connect") = true
  · rw [if_pos h1]
    by_cases h2 : 1 < (sendPersonalMessage st (.presence (presenceSnapshot st u) "connect") u).active.length
    · rw [if_pos h2, sendEach_chatCore, sendPersonalMessage_chatCore]
    · rw [if_neg h2, sendPersonalMessage_chatCore]
  · rw [if_neg h1]
    by_cases h2 : (a == "disconnect") = true
    · rw [if_pos h2, sendEach_chatCore]
    · rw [if_neg h2]

theorem sendFold_chatCore (f : Frame) (ex : Option Nat) (ps : List Nat) (st : MState) :
    chatCore (ps.foldl
      (fun s v => if some v == ex then s else sendPersonalMessage s f v) st)
      = chatCore st := by
  induction ps generalizing st with
  | nil => rfl
  | cons r rs ih =>
    have hstep : (r :: rs).foldl
        (fun s v => if some v == ex then s else sendPersonalMessage s f v) st
        = rs.foldl (fun s v => if some v == ex then s else sendPersonalMessage s f v)
            (if (some r == ex) = true then st else sendPersonalMessage st f r) := rfl
    rw [hstep]
    by_cases hr : (some r == ex) = true
    · rw [if_pos hr, ih]
    · rw [if_neg hr, ih, sendPersonalMessage_chatCore]

theorem sendToChat_chatCore (st : MState) (c : Nat) (f : Frame) (ex : Option Nat) :
    chatCore (sendToChat st c f ex) = chatCore st := by
  unfold sendToChat
  cases hg : dget st.chatSessions c with
  | none => rfl
  | some ps => exact sendFold_chatCore f ex ps st

theorem sendAckFold_chatCore (f : Frame) (ex : Option Nat) (ps : List Nat)
    (acc : Bool × MState) :
    chatCore (ps.foldl (fun acc v =>
      if some v == ex then acc
      else
        let s1 := sendPersonalMessage acc.2 f v
        (acc.1 && dmem s1.active v, s1)) acc).2 = chatCore acc.2 := by
  induction ps generalizing acc with
  | nil => rfl
  | cons r rs ih =>
    have hstep : ((r :: rs).foldl (fun acc v =>
        if some v == ex then acc
        else
          let s1 := sendPersonalMessage acc.2 f v
          (acc.1 && dmem s1.active v, s1)) acc)
        = rs.foldl (fun acc v =>
            if some v == ex then acc
            else
              let s1 := sendPersonalMessage acc.2 f v
              (acc.1 && dmem s1.active v, s1))
            (if (some r == ex) = true then acc
             else (acc.1 && dmem (sendPersonalMessage acc.2 f r).active r,
               sendPersonalMessage acc.2 f r)) := rfl
    rw [hstep]
    by_cases hr : (some r == ex) = true
    · rw [if_pos hr, ih]
    · rw [if_neg hr, ih]
      exact sendPersonalMessage_chatCore acc.2 f r

theorem sendToChatWithAck_chatCore (st : MState) (c : Nat) (f : Frame) (ex : Option Nat) :
    chatCore (sendToChatWithAck st c f ex).2 = chatCore st := by
  unfold sendToChatWithAck
  cases hg : dget st.chatSessions c with
  | none => rfl
  | some ps => exact sendAckFold_chatCore f ex ps (true, st)

theorem connectWithoutBroadcast_chatCore (st : MState) (ws u : Nat) (dn : String)
    (sid : Option String) (now : Int) :
    chatCore (connectWithoutBroadcast st ws u dn sid now) = chatCore st := by
  unfold connectWithoutBroadcast
  cases sid <;> rfl

theorem closeTransport_chatCore (st : MState) (ws : Nat) (r : String) :
    chatCore (closeTransport st ws r) = chatCore st := by
  unfold closeTransport
  by_cases h : dmem st.wsFail ws = true
  · rw [if_pos h]
  · rw [if_neg h]
    rfl

theorem connectOp_chatCore (st : MState) (ws u : Nat) (dn : String) (now : Int) :
    chatCore (connectOp st ws u dn now) = chatCore st := by
  unfold connectOp
  cases hg : dget st.active u with
  | none =>
    show chatCore (broadcastPresenceUpdate
      (connectWithoutBroadcast st ws u dn none now) "connect" u dn) = chatCore st
    rw [broadcastPresenceUpdate_chatCore, connectWithoutBroadcast_chatCore]
  | some old =>
    show chatCore (broadcastPresenceUpdate
      (connectWithoutBroadcast (closeTransport st old "New connection from same user")
        ws u dn none now) "connect" u dn) = chatCore st
    rw [broadcastPresenceUpdate_chatCore, connectWithoutBroadcast_chatCore,
      closeTransport_chatCore]

theorem removeActive_chatCore (st : MState) (u : Nat) :
    chatCore (removeActive st u) = chatCore st := rfl

theorem cleanupDisconnectedUser_chatCore (st : MState) (u : Nat) :
    chatCore (cleanupDisconnectedUser st u) = chatCore st := rfl

theorem disconnectOp_chatCore (st : MState) (u : Nat) :
    chatCore (disconnectOp st u) = chatCore st := by
  unfold disconnectOp
  cases hg : dget st.active u with
  | none => rfl
  | some ws =>
    show chatCore (broadcastPresenceUpdate (cleanupDisconnectedUser (removeActive st u) u)
      "disconnect" u ((dget st.userInfo u).getD "Unknown")) = chatCore st
    rw [broadcastPresenceUpdate_chatCore]
    rfl

theorem websocketHelloPath_chatCore (st : MState) (ws u : Nat) (dn : String)
    (sid : Option String) (now : Int) :
    chatCore (websocketHelloPath st ws u dn sid now) = chatCore st := by
  cases hf : dget (connectWithoutBroadcast st ws u dn sid now).wsFail ws with
  | none =>
    simp only [websocketHelloPath, wsSendRaw, hf]
    rw [broadcastPresenceUpdate_chatCore]
    exact connectWithoutBroadcast_chatCore st ws u dn sid now
  | some e =>
    simp only [websocketHelloPath, wsSendRaw, hf]
    rw [disconnectOp_chatCore]
    exact connectWithoutBroadcast_chatCore st ws u dn sid now

theorem handleTyping_chatCore (st : MState) (u : Nat) (b : Bool) :
    chatCore (handleTyping st u b).2 = chatCore st := by
  cases h1 : dget st.userChats u with
  | none => simp [handleTyping, h1]
  | some c =>
    cases h2 : dget st.chatSessions c with
    | none => simp [handleTyping, h1, h2]
    | some ps =>
      simp only [handleTyping, h1, h2]
      split
      · rfl
      · simp only
        rw [sendToChat_chatCore]
        split
        · rfl
        · split <;> rfl

theorem handlePing_chatCore (st : MState) (u : Nat) (now : Int) :
    chatCore (handlePing st u now).2 = chatCore st := by
  unfold handlePing
  simp only
  rw [sendPersonalMessage_chatCore]
  rfl

theorem handlePong_chatCore (st : MState) (u : Nat) (now : Int) :
    chatCore (handlePong st u now).2 = chatCore st := rfl

theorem routerPingBranch_chatCore (st : MState) (ws : Nat) :
    chatCore (routerPingBranch st ws) = chatCore st := by
  cases hf : dget st.wsFail ws with
  | none => simp [routerPingBranch, wsSendRaw, hf, chatCore]
  | some e => cases e <;> simp [routerPingBranch, wsSendRaw, hf, chatCore]

theorem routerPongBranch_chatCore (st : MState) :
    chatCore (routerPongBranch st) = chatCore st := rfl

/-! ## Session bookkeeping invariant -/

/-- Structural invariant of the session bookkeeping: session keys are unique
and below the fresh-id counter, active-chat pointers stay below the counter, a
pointed-at existing session contains its pointer's owner, every stored session
is nonempty, at most one pointer refers to a chat id with no session (a
dangling pointer left by cleanup), and no two distinct sessions share two
distinct participants. -/
structure ChatInv (st : MState) : Prop where
  keysNodup : (dkeys st.chatSessions).Nodup
  keysLt : ∀ c ∈ dkeys st.chatSessions, c < st.nextChat
  ptrLt : ∀ u c, dget st.userChats u = some c → c < st.nextChat
  nonempty : ∀ c ps, dget st.chatSessions c = some ps → ps ≠ []
  ptrMem : ∀ u c ps, dget st.userChats u = some c → dget st.chatSessions c = some ps →
    u ∈ ps
  uniqueDead : ∀ u1 u2 c, dget st.userChats u1 = some c → dget st.userChats u2 = some c →
    dget st.chatSessions c = none → u1 = u2
  noDupPair : ∀ c1 ps1 c2 ps2, dget st.chatSessions c1 = some ps1 →
    dget st.chatSessions c2 = some ps2 → c1 ≠ c2 →
    ∀ u v, u ≠ v → u ∈ ps1 → v ∈ ps1 → u ∈ ps2 → v ∈ ps2 → False

theorem chatInv_init : ChatInv initState := by
  constructor
  · simp [initState, dkeys]
  · intro c hc
    simp [initState, dkeys] at hc
  · intro u c h
    simp [initState, dget] at h
  · intro c ps h
    simp [initState, dget] at h
  · intro u c ps h
    simp [initState, dget] at h
  · intro u1 u2 c h1
    simp [initState, dget] at h1
  · intro c1 ps1 c2 ps2 h1
    simp [initState, dget] at h1

theorem chatInv_of_chatCore_eq {s t : MState} (h : chatCore t = chatCore s)
    (hi : ChatInv s) : ChatInv t := by
  have h1 : t.chatSessions = s.chatSessions := chatCore_sessions h
  have h2 : t.userChats = s.userChats := chatCore_userChats h
  have h3 : t.nextChat = s.nextChat := chatCore_nextChat h
  constructor
  · rw [h1]; exact hi.keysNodup
  · rw [h1, h3]; exact hi.keysLt
  · rw [h2, h3]; exact hi.ptrLt
  · rw [h1]; exact hi.nonempty
  · rw [h2, h1]; exact hi.ptrMem
  · rw [h2, h1]; exact hi.uniqueDead
  · rw [h1]; exact hi.noDupPair

/-- Under the invariant, a pair of distinct users determines the session
containing both of them. -/
theorem pair_unique {st : MState} (hi : ChatInv st) {c1 c2 a b : Nat}
    {ps1 ps2 : List Nat}
    (h1 : dget st.chatSessions c1 = some ps1) (h2 : dget st.chatSessions c2 = some ps2)
    (hab : a ≠ b) (ha1 : a ∈ ps1) (hb1 : b ∈ ps1) (ha2 : a ∈ ps2) (hb2 : b ∈ ps2) :
    c1 = c2 := by
  by_contra hne
  exact hi.noDupPair c1 ps1 c2 ps2 h1 h2 hne a b hab ha1 hb1 ha2 hb2

theorem mem_dkeys_of_dget {κ α : Type} [BEq κ] [LawfulBEq κ]
    {m : List (κ × α)} {k : κ} {v : α} (h : dget m k = some v) : k ∈ dkeys m :=
  dget_isSome_iff.mp (by rw [h]; rfl)

theorem dget_dset2_fst {κ : Type} [BEq κ] [LawfulBEq κ]
    (m : List (κ × Nat)) (a b : κ) (c : Nat) :
    dget (dset (dset m a c) b c) a = some c := by
  by_cases hab : a = b
  · subst hab
    exact dget_dset_self (dset m a c) a c
  · rw [dget_dset_ne _ _ _ _ hab, dget_dset_self]

theorem dget_dset2_snd {κ : Type} [BEq κ] [LawfulBEq κ]
    (m : List (κ × Nat)) (a b : κ) (c : Nat) :
    dget (dset (dset m a c) b c) b = some c :=
  dget_dset_self _ b c

theorem dget_dset2_other {κ : Type} [BEq κ] [LawfulBEq κ]
    (m : List (κ × Nat)) (a b : κ) (c : Nat) (w : κ) (hwa : w ≠ a) (hwb : w ≠ b) :
    dget (dset (dset m a c) b c) w = dget m w := by
  rw [dget_dset_ne _ _ _ _ hwb, dget_dset_ne _ _ _ _ hwa]

/-- Invariant and result facts for create_or_get_chat. -/
theorem createOrGetChat_spec (st : MState) (a b : Nat) (hi : ChatInv st) :
    ChatInv (createOrGetChat st a b).2 ∧
    (∃ ps, dget (createOrGetChat st a b).2.chatSessions (createOrGetChat st a b).1
        = some ps ∧ a ∈ ps ∧ b ∈ ps) ∧
    dget (createOrGetChat st a b).2.userChats a = some (createOrGetChat st a b).1 ∧
    dget (createOrGetChat st a b).2.userChats b = some (createOrGetChat st a b).1 := by
  cases hfind : st.chatSessions.find? (fun q => q.2.contains a && q.2.contains b) with
  | some p =>
    obtain ⟨c, ps⟩ := p
    have hmem : (c, ps) ∈ st.chatSessions := List.mem_of_find?_eq_some hfind
    have hpred := List.find?_some hfind
    have hac : a ∈ ps := by
      simp only [Bool.and_eq_true] at hpred
      simpa using hpred.1
    have hbc : b ∈ ps := by
      simp only [Bool.and_eq_true] at hpred
      simpa using hpred.2
    have hcs : dget st.chatSessions c = some ps := dget_eq_some_of_mem hi.keysNodup hmem
    have hclt : c < st.nextChat := hi.keysLt c (mem_dkeys_of_dget hcs)
    have hres : createOrGetChat st a b
        = (c, { st with userChats := dset (dset st.userChats a c) b c }) := by
      unfold createOrGetChat
      rw [hfind]
    rw [hres]
    refine ⟨?_, ⟨ps, hcs, hac, hbc⟩, dget_dset2_fst _ _ _ _, dget_dset2_snd _ _ _ _⟩
    constructor
    · exact hi.keysNodup
    · exact hi.keysLt
    · intro w cw hw
      by_cases hwb : w = b
      · subst hwb
        rw [dget_dset2_snd] at hw
        cases hw
        exact hclt
      · by_cases hwa : w = a
        · subst hwa
          rw [dget_dset2_fst] at hw
          cases hw
          exact hclt
        · rw [dget_dset2_other _ _ _ _ _ hwa hwb] at hw
          exact hi.ptrLt w cw hw
    · exact hi.nonempty
    · intro w cw psw hw hsw
      by_cases hwb : w = b
      · subst hwb
        rw [dget_dset2_snd] at hw
        cases hw
        rw [hcs] at hsw
        cases hsw
        exact hbc
      · by_cases hwa : w = a
        · subst hwa
          rw [dget_dset2_fst] at hw
          cases hw
          rw [hcs] at hsw
          cases hsw
          exact hac
        · rw [dget_dset2_other _ _ _ _ _ hwa hwb] at hw
          exact hi.ptrMem w cw psw hw hsw
    · intro w1 w2 cw h1 h2 hdead
      by_cases h1b : w1 = b
      · subst h1b
        rw [dget_dset2_snd] at h1
        cases h1
        rw [hcs] at hdead
        cases hdead
      · by_cases h1a : w1 = a
        · subst h1a
          rw [dget_dset2_fst] at h1
          cases h1
          rw [hcs] at hdead
          cases hdead
        · by_cases h2b : w2 = b
          · subst h2b
            rw [dget_dset2_snd] at h2
            cases h2
            rw [hcs] at hdead
            cases hdead
          · by_cases h2a : w2 = a
            · subst h2a
              rw [dget_dset2_fst] at h2
              cases h2
              rw [hcs] at hdead
              cases hdead
            · rw [dget_dset2_other _ _ _ _ _ h1a h1b] at h1
              rw [dget_dset2_other _ _ _ _ _ h2a h2b] at h2
              exact hi.uniqueDead w1 w2 cw h1 h2 hdead
    · exact hi.noDupPair
  | none =>
    have hmiss : ∀ q ∈ st.chatSessions, ¬ (q.2.contains a && q.2.contains b) = true :=
      List.find?_eq_none.mp hfind
    have hfresh : dget st.chatSessions st.nextChat = none :=
      dget_none_iff_not_mem_keys.mpr (fun hk => lt_irrefl _ (hi.keysLt _ hk))
    have hfreshm : dmem st.chatSessions st.nextChat = false := by
      simp [dmem, hfresh]
    have hres : createOrGetChat st a b
        = (st.nextChat, { st with
            chatSessions := dset st.chatSessions st.nextChat (sadd (sadd [] a) b)
            userChats := dset (dset st.userChats a st.nextChat) b st.nextChat
            nextChat := st.nextChat + 1 }) := by
      unfold createOrGetChat
      rw [hfind]
    have hmemn : ∀ x, x ∈ sadd (sadd [] a) b ↔ (x = a ∨ x = b) := by
      intro x
      rw [mem_sadd, mem_sadd]
      simp
      tauto
    rw [hres]
    have hsets : ∀ cw psw, dget (dset st.chatSessions st.nextChat (sadd (sadd [] a) b)) cw
        = some psw → (cw = st.nextChat ∧ psw = sadd (sadd [] a) b)
          ∨ (cw ≠ st.nextChat ∧ dget st.chatSessions cw = some psw) := by
      intro cw psw hw
      by_cases hcw : cw = st.nextChat
      · subst hcw
        rw [dget_dset_self] at hw
        cases hw
        exact Or.inl ⟨rfl, rfl⟩
      · rw [dget_dset_ne _ _ _ _ hcw] at hw
        exact Or.inr ⟨hcw, hw⟩
    refine ⟨?_, ⟨sadd (sadd [] a) b, dget_dset_self _ _ _,
      (hmemn a).mpr (Or.inl rfl), (hmemn b).mpr (Or.inr rfl)⟩,
      dget_dset2_fst _ _ _ _, dget_dset2_snd _ _ _ _⟩
    constructor
    · rw [dkeys_dset, if_neg (by simp [hfreshm])]
      rw [List.nodup_append]
      refine ⟨hi.keysNodup, List.nodup_singleton _, ?_⟩
      intro x hx hx2
      rw [List.mem_singleton] at hx2
      subst hx2
      exact lt_irrefl _ (hi.keysLt _ hx)
    · intro cw hcw
      rw [dkeys_dset, if_neg (by simp [hfreshm])] at hcw
      rcases List.mem_append.mp hcw with hcw | hcw
      · exact Nat.lt_succ_of_lt (hi.keysLt _ hcw)
      · rw [List.mem_singleton] at hcw
        subst hcw
        exact Nat.lt_succ_self _
    · intro w cw hw
      by_cases hwb : w = b
      · subst hwb
        rw [dget_dset2_snd] at hw
        cases hw
        exact Nat.lt_succ_self _
      · by_cases hwa : w = a
        · subst hwa
          rw [dget_dset2_fst] at hw
          cases hw
          exact Nat.lt_succ_self _
        · rw [dget_dset2_other _ _ _ _ _ hwa hwb] at hw
          exact Nat.lt_succ_of_lt (hi.ptrLt w cw hw)
    · intro cw psw hw
      rcases hsets cw psw hw with ⟨_, hps⟩ | ⟨_, hw2⟩
      · subst hps
        exact sadd_ne_nil _ _
      · exact hi.nonempty cw psw hw2
    · intro w cw psw hw hsw
      by_cases hwb : w = b
      · subst hwb
        rw [dget_dset2_snd] at hw
        cases hw
        rw [dget_dset_self] at hsw
        cases hsw
        exact (hmemn _).mpr (Or.inr rfl)
      · by_cases hwa : w = a
        · subst hwa
          rw [dget_dset2_fst] at hw
          cases hw
          rw [dget_dset_self] at hsw
          cases hsw
          exact (hmemn _).mpr (Or.inl rfl)
        · rw [dget_dset2_other _ _ _ _ _ hwa hwb] at hw
          have hcwne : cw ≠ st.nextChat := Nat.ne_of_lt (hi.ptrLt w cw hw)
          rw [dget_dset_ne _ _ _ _ hcwne] at hsw
          exact hi.ptrMem w cw psw hw hsw
    · intro w1 w2 cw h1 h2 hdead
      by_cases h1b : w1 = b
      · subst h1b
        rw [dget_dset2_snd] at h1
        cases h1
        rw [dget_dset_self] at hdead
        cases hdead
      · by_cases h1a : w1 = a
        · subst h1a
          rw [dget_dset2_fst] at h1
          cases h1
          rw [dget_dset_self] at hdead
          cases hdead
        · by_cases h2b : w2 = b
          · subst h2b
            rw [dget_dset2_snd] at h2
            cases h2
            rw [dget_dset_self] at hdead
            cases hdead
          · by_cases h2a : w2 = a
            · subst h2a
              rw [dget_dset2_fst] at h2
              cases h2
              rw [dget_dset_self] at hdead
              cases hdead
            · rw [dget_dset2_other _ _ _ _ _ h1a h1b] at h1
              rw [dget_dset2_other _ _ _ _ _ h2a h2b] at h2
              have hcwne : cw ≠ st.nextChat := Nat.ne_of_lt (hi.ptrLt w1 cw h1)
              rw [dget_dset_ne _ _ _ _ hcwne] at hdead
              exact hi.uniqueDead w1 w2 cw h1 h2 hdead
    · intro c1 ps1 c2 ps2 hs1 hs2 hne x y hxy hx1 hy1 hx2 hy2
      rcases hsets c1 ps1 hs1 with ⟨hc1, hps1⟩ | ⟨hc1, hs1o⟩
      · rcases hsets c2 ps2 hs2 with ⟨hc2, hps2⟩ | ⟨hc2, hs2o⟩
        · exact hne (hc1.trans hc2.symm)
        · have hx1m := (hmemn x).mp (hps1 ▸ hx1)
          have hy1m := (hmemn y).mp (hps1 ▸ hy1)
          have hab : a ∈ ps2 ∧ b ∈ ps2 := by
            rcases hx1m with rfl | rfl <;> rcases hy1m with rfl | rfl
            · exact absurd rfl hxy
            · exact ⟨hx2, hy2⟩
            · exact ⟨hy2, hx2⟩
            · exact absurd rfl hxy
          refine absurd ?_ (hmiss (c2, ps2) (mem_of_dget hs2o))
          simp only [Bool.and_eq_true]
          exact ⟨by simpa using hab.1, by simpa using hab.2⟩
      · rcases hsets c2 ps2 hs2 with ⟨hc2, hps2⟩ | ⟨hc2, hs2o⟩
        · have hx2m := (hmemn x).mp (hps2 ▸ hx2)
          have hy2m := (hmemn y).mp (hps2 ▸ hy2)
          have hab : a ∈ ps1 ∧ b ∈ ps1 := by
            rcases hx2m with rfl | rfl <;> rcases hy2m with rfl | rfl
            · exact absurd rfl hxy
            · exact ⟨hx1, hy1⟩
            · exact ⟨hy1, hx1⟩
            · exact absurd rfl hxy
          refine absurd ?_ (hmiss (c1, ps1) (mem_of_dget hs1o))
          simp only [Bool.and_eq_true]
          exact ⟨by simpa using hab.1, by simpa using hab.2⟩
        · exact hi.noDupPair c1 ps1 c2 ps2 hs1o hs2o hne x y hxy hx1 hy1 hx2 hy2

theorem createOrGetChat_env (st : MState) (a b : Nat) :
    (createOrGetChat st a b).2.active = st.active ∧
    (createOrGetChat st a b).2.userInfo = st.userInfo ∧
    (createOrGetChat st a b).2.wsFail = st.wsFail ∧
    (createOrGetChat st a b).2.wsOut = st.wsOut := by
  unfold createOrGetChat
  cases hfind : st.chatSessions.find? (fun q => q.2.contains a && q.2.contains b) with
  | some p => exact ⟨rfl, rfl, rfl, rfl⟩
  | none => exact ⟨rfl, rfl, rfl, rfl⟩

theorem restoreUserChatSession_inv (st : MState) (u : Nat) (hi : ChatInv st) :
    ChatInv (restoreUserChatSession st u) := by
  cases hfind : st.chatSessions.find? (fun p => p.2.contains u) with
  | none => simpa only [restoreUserChatSession, hfind] using hi
  | some cps =>
    obtain ⟨c, ps⟩ := cps
    have hmem : (c, ps) ∈ st.chatSessions := List.mem_of_find?_eq_some hfind
    have hu : u ∈ ps := by simpa using List.find?_some hfind
    have hcs : dget st.chatSessions c = some ps := dget_eq_some_of_mem hi.keysNodup hmem
    have hlt : c < st.nextChat := hi.keysLt c (mem_dkeys_of_dget hcs)
    have hinv1 : ChatInv { st with userChats := dset st.userChats u c } := by
      constructor
      · exact hi.keysNodup
      · exact hi.keysLt
      · intro w cw hw
        by_cases hwu : w = u
        · subst hwu
          rw [dget_dset_self] at hw
          cases hw
          exact hlt
        · rw [dget_dset_ne _ _ _ _ hwu] at hw
          exact hi.ptrLt w cw hw
      · exact hi.nonempty
      · intro w cw psw hw hsw
        by_cases hwu : w = u
        · subst hwu
          rw [dget_dset_self] at hw
          cases hw
          rw [hcs] at hsw
          cases hsw
          exact hu
        · rw [dget_dset_ne _ _ _ _ hwu] at hw
          exact hi.ptrMem w cw psw hw hsw
      · intro w1 w2 cw h1 h2 hdead
        by_cases h1u : w1 = u
        · subst h1u
          rw [dget_dset_self] at h1
          cases h1
          rw [hcs] at hdead
          cases hdead
        · by_cases h2u : w2 = u
          · subst h2u
            rw [dget_dset_self] at h2
            cases h2
            rw [hcs] at hdead
            cases hdead
          · rw [dget_dset_ne _ _ _ _ h1u] at h1
            rw [dget_dset_ne _ _ _ _ h2u] at h2
            exact hi.uniqueDead w1 w2 cw h1 h2 hdead
      · exact hi.noDupPair
    simp only [restoreUserChatSession, hfind]
    split
    · exact hinv1
    · exact chatInv_of_chatCore_eq (sendPersonalMessage_chatCore _ _ u) hinv1

/-- Re-pointing two users at an existing session containing both preserves the
invariant. -/
theorem repoint_inv {st : MState} (hi : ChatInv st) {a b c : Nat} {ps : List Nat}
    (hcs : dget st.chatSessions c = some ps) (ha : a ∈ ps) (hb : b ∈ ps) :
    ChatInv { st with userChats := dset (dset st.userChats a c) b c } := by
  have hclt : c < st.nextChat := hi.keysLt c (mem_dkeys_of_dget hcs)
  constructor
  · exact hi.keysNodup
  · exact hi.keysLt
  · intro w cw hw
    by_cases hwb : w = b
    · subst hwb
      rw [dget_dset2_snd] at hw
      cases hw
      exact hclt
    · by_cases hwa : w = a
      · subst hwa
        rw [dget_dset2_fst] at hw
        cases hw
        exact hclt
      · rw [dget_dset2_other _ _ _ _ _ hwa hwb] at hw
        exact hi.ptrLt w cw hw
  · exact hi.nonempty
  · intro w cw psw hw hsw
    by_cases hwb : w = b
    · subst hwb
      rw [dget_dset2_snd] at hw
      cases hw
      rw [hcs] at hsw
      cases hsw
      exact hb
    · by_cases hwa : w = a
      · subst hwa
        rw [dget_dset2_fst] at hw
        cases hw
        rw [hcs] at hsw
        cases hsw
        exact ha
      · rw [dget_dset2_other _ _ _ _ _ hwa hwb] at hw
        exact hi.ptrMem w cw psw hw hsw
  · intro w1 w2 cw h1 h2 hdead
    by_cases h1b : w1 = b
    · subst h1b
      rw [dget_dset2_snd] at h1
      cases h1
      rw [hcs] at hdead
      cases hdead
    · by_cases h1a : w1 = a
      · subst h1a
        rw [dget_dset2_fst] at h1
        cases h1
        rw [hcs] at hdead
        cases hdead
      · by_cases h2b : w2 = b
        · subst h2b
          rw [dget_dset2_snd] at h2
          cases h2
          rw [hcs] at hdead
          cases hdead
        · by_cases h2a : w2 = a
          · subst h2a
            rw [dget_dset2_fst] at h2
            cases h2
            rw [hcs] at hdead
            cases hdead
          · rw [dget_dset2_other _ _ _ _ _ h1a h1b] at h1
            rw [dget_dset2_other _ _ _ _ _ h2a h2b] at h2
            exact hi.uniqueDead w1 w2 cw h1 h2 hdead
  · exact hi.noDupPair

theorem handleOpenChatCreate_eq (st : MState) (u t : Nat) (dn : String)
    {ps0 : List Nat}
    (hcs : dget (createOrGetChat st u t).2.chatSessions (createOrGetChat st u t).1
      = some ps0) :
    handleOpenChatCreate st u t dn
      = (.opened (createOrGetChat st u t).1,
        sendPersonalMessage
          (sendPersonalMessage
            { (createOrGetChat st u t).2 with
              chatSessions := dset (createOrGetChat st u t).2.chatSessions
                (createOrGetChat st u t).1 (sadd (sadd ps0 u) t)
              userChats := dset (dset (createOrGetChat st u t).2.userChats u
                (createOrGetChat st u t).1) t (createOrGetChat st u t).1 }
            (Frame.chatOpened (createOrGetChat st u t).1 [u, t] t dn) u)
          (Frame.chatOpened (createOrGetChat st u t).1 [u, t] t dn) t) := by
  have hdm : dmem (createOrGetChat st u t).2.chatSessions (createOrGetChat st u t).1
      = true := by
    simp [dmem, hcs]
  simp only [handleOpenChatCreate, hdm, if_true, hcs, Option.getD_some]

theorem handleOpenChatCreate_spec (st : MState) (u t : Nat) (dn : String)
    (hi : ChatInv st) :
    ChatInv (handleOpenChatCreate st u t dn).2 ∧
    ∃ c ps, (handleOpenChatCreate st u t dn).1 = .opened c ∧
      dget (handleOpenChatCreate st u t dn).2.chatSessions c = some ps ∧
      u ∈ ps ∧ t ∈ ps ∧
      dget (handleOpenChatCreate st u t dn).2.userChats u = some c ∧
      dget (handleOpenChatCreate st u t dn).2.userChats t = some c := by
  obtain ⟨hinv1, ⟨ps0, hcs, hu, ht⟩, hpu, hpt⟩ := createOrGetChat_spec st u t hi
  have heq := handleOpenChatCreate_eq st u t dn hcs
  have hsadd : sadd (sadd ps0 u) t = ps0 := by rw [sadd_of_mem hu, sadd_of_mem ht]
  rw [hsadd] at heq
  have hback : dset (createOrGetChat st u t).2.chatSessions (createOrGetChat st u t).1 ps0
      = (createOrGetChat st u t).2.chatSessions := dset_eq_self hinv1.keysNodup hcs
  rw [hback] at heq
  have hinvm : ChatInv { (createOrGetChat st u t).2 with
      chatSessions := (createOrGetChat st u t).2.chatSessions
      userChats := dset (dset (createOrGetChat st u t).2.userChats u
        (createOrGetChat st u t).1) t (createOrGetChat st u t).1 } :=
    repoint_inv hinv1 hcs hu ht
  have hcc : chatCore (handleOpenChatCreate st u t dn).2
      = chatCore { (createOrGetChat st u t).2 with
          chatSessions := (createOrGetChat st u t).2.chatSessions
          userChats := dset (dset (createOrGetChat st u t).2.userChats u
            (createOrGetChat st u t).1) t (createOrGetChat st u t).1 } := by
    rw [heq]
    simp only
    rw [sendPersonalMessage_chatCore, sendPersonalMessage_chatCore]
  refine ⟨chatInv_of_chatCore_eq hcc hinvm, (createOrGetChat st u t).1, ps0, ?_, ?_, hu, ht, ?_, ?_⟩
  · rw [heq]
  · rw [chatCore_sessions hcc]
    exact hcs
  · rw [chatCore_userChats hcc]
    exact dget_dset2_fst _ _ _ _
  · rw [chatCore_userChats hcc]
    exact dget_dset2_snd _ _ _ _

theorem handleOpenChatCreate_found (st : MState) (u t : Nat) (dn : String)
    (hi : ChatInv st) {c1 : Nat} {ps1 : List Nat}
    (hfind : st.chatSessions.find? (fun q => q.2.contains u && q.2.contains t)
      = some (c1, ps1)) :
    (handleOpenChatCreate st u t dn).1 = .opened c1 ∧
    (handleOpenChatCreate st u t dn).2.chatSessions = st.chatSessions := by
  have hcg : createOrGetChat st u t
      = (c1, { st with userChats := dset (dset st.userChats u c1) t c1 }) := by
    unfold createOrGetChat
    rw [hfind]
  have hmem : (c1, ps1) ∈ st.chatSessions := List.mem_of_find?_eq_some hfind
  have hpred := List.find?_some hfind
  have hu : u ∈ ps1 := by
    simp only [Bool.and_eq_true] at hpred
    simpa using hpred.1
  have ht : t ∈ ps1 := by
    simp only [Bool.and_eq_true] at hpred
    simpa using hpred.2
  have hcs0 : dget st.chatSessions c1 = some ps1 := dget_eq_some_of_mem hi.keysNodup hmem
  have hcs : dget (createOrGetChat st u t).2.chatSessions (createOrGetChat st u t).1
      = some ps1 := by
    rw [hcg]
    exact hcs0
  have heq := handleOpenChatCreate_eq st u t dn hcs
  have hsadd : sadd (sadd ps1 u) t = ps1 := by rw [sadd_of_mem hu, sadd_of_mem ht]
  rw [hsadd] at heq
  have hback : dset (createOrGetChat st u t).2.chatSessions (createOrGetChat st u t).1 ps1
      = (createOrGetChat st u t).2.chatSessions := by
    rw [hcg]
    exact dset_eq_self hi.keysNodup hcs0
  rw [hback] at heq
  have hcc : chatCore (handleOpenChatCreate st u t dn).2
      = chatCore { (createOrGetChat st u t).2 with
          chatSessions := (createOrGetChat st u t).2.chatSessions
          userChats := dset (dset (createOrGetChat st u t).2.userChats u
            (createOrGetChat st u t).1) t (createOrGetChat st u t).1 } := by
    rw [heq]
    simp only
    rw [sendPersonalMessage_chatCore, sendPersonalMessage_chatCore]
  constructor
  · rw [heq, hcg]
  · rw [chatCore_sessions hcc]
    show (createOrGetChat st u t).2.chatSessions = st.chatSessions
    rw [hcg]

theorem handleOpenChat_spec (st : MState) (u t : Nat) (dn : String) (hi : ChatInv st)
    (htact : dmem st.active t = true) :
    ChatInv (handleOpenChat st u t dn).2 ∧
    ∃ c ps, (handleOpenChat st u t dn).1 = .opened c ∧
      dget (handleOpenChat st u t dn).2.chatSessions c = some ps ∧
      u ∈ ps ∧ t ∈ ps ∧
      dget (handleOpenChat st u t dn).2.userChats u = some c := by
  cases hptr : dget st.userChats u with
  | none =>
    have heq : handleOpenChat st u t dn = handleOpenChatCreate st u t dn := by
      simp only [handleOpenChat, htact, Bool.not_true, Bool.false_eq_true, if_false, hptr]
    rw [heq]
    obtain ⟨h1, c, ps, h2, h3, h4, h5, h6, h7⟩ := handleOpenChatCreate_spec st u t dn hi
    exact ⟨h1, c, ps, h2, h3, h4, h5, h6⟩
  | some e =>
    cases hsess : dget st.chatSessions e with
    | none =>
      have heq : handleOpenChat st u t dn = handleOpenChatCreate st u t dn := by
        simp only [handleOpenChat, htact, Bool.not_true, Bool.false_eq_true, if_false,
          hptr, hsess]
      rw [heq]
      obtain ⟨h1, c, ps, h2, h3, h4, h5, h6, h7⟩ := handleOpenChatCreate_spec st u t dn hi
      exact ⟨h1, c, ps, h2, h3, h4, h5, h6⟩
    | some pse =>
      cases hct : pse.contains t with
      | false =>
        have heq : handleOpenChat st u t dn = handleOpenChatCreate st u t dn := by
          simp only [handleOpenChat, htact, Bool.not_true, Bool.false_eq_true, if_false,
            hptr, hsess, hct]
        rw [heq]
        obtain ⟨h1, c, ps, h2, h3, h4, h5, h6, h7⟩ := handleOpenChatCreate_spec st u t dn hi
        exact ⟨h1, c, ps, h2, h3, h4, h5, h6⟩
      | true =>
        have heq : handleOpenChat st u t dn
            = (.opened e, sendPersonalMessage st (.chatOpened e [u, t] t dn) u) := by
          simp only [handleOpenChat, htact, Bool.not_true, Bool.false_eq_true, if_false,
            hptr, hsess, hct, if_true]
        have hcc : chatCore (handleOpenChat st u t dn).2 = chatCore st := by
          rw [heq]
          exact sendPersonalMessage_chatCore st _ u
        refine ⟨chatInv_of_chatCore_eq hcc hi, e, pse, ?_, ?_, ?_, ?_, ?_⟩
        · rw [heq]
        · rw [chatCore_sessions hcc]
          exact hsess
        · exact hi.ptrMem u e pse hptr hsess
        · simpa using hct
        · rw [chatCore_userChats hcc]
          exact hptr

/-- The recipient's transport, when connected, does not raise. -/
def sendOk (st : MState) (v : Nat) : Prop :=
  ∀ w, dget st.active v = some w → dget st.wsFail w = none

theorem sendPersonalMessage_env_ok (st : MState) (f : Frame) (v : Nat)
    (hok : sendOk st v) :
    (sendPersonalMessage st f v).active = st.active ∧
    (sendPersonalMessage st f v).userInfo = st.userInfo ∧
    (sendPersonalMessage st f v).wsFail = st.wsFail := by
  cases hg : dget st.active v with
  | none => simp [sendPersonalMessage, hg]
  | some w =>
    have hf := hok w hg
    simp [sendPersonalMessage, wsSendRaw, hg, hf]

theorem handleOpenChatCreate_env (st : MState) (u t : Nat) (dn : String)
    (hi : ChatInv st) (hoku : sendOk st u) (hokt : sendOk st t) :
    (handleOpenChatCreate st u t dn).2.active = st.active ∧
    (handleOpenChatCreate st u t dn).2.wsFail = st.wsFail := by
  obtain ⟨hinv1, ⟨ps0, hcs, hu, ht⟩, hpu, hpt⟩ := createOrGetChat_spec st u t hi
  obtain ⟨hact1, hinfo1, hfail1, hout1⟩ := createOrGetChat_env st u t
  have heq := handleOpenChatCreate_eq st u t dn hcs
  set stm : MState := { (createOrGetChat st u t).2 with
      chatSessions := dset (createOrGetChat st u t).2.chatSessions
        (createOrGetChat st u t).1 (sadd (sadd ps0 u) t)
      userChats := dset (dset (createOrGetChat st u t).2.userChats u
        (createOrGetChat st u t).1) t (createOrGetChat st u t).1 } with hstm
  have hactm : stm.active = st.active := hact1
  have hfailm : stm.wsFail = st.wsFail := hfail1
  have hokum : sendOk stm u := by
    intro w hw
    rw [hactm] at hw
    rw [hfailm]
    exact hoku w hw
  obtain ⟨ha1, hi1, hf1⟩ := sendPersonalMessage_env_ok stm
    (Frame.chatOpened (createOrGetChat st u t).1 [u, t] t dn) u hokum
  have hoktm : sendOk (sendPersonalMessage stm
      (Frame.chatOpened (createOrGetChat st u t).1 [u, t] t dn) u) t := by
    intro w hw
    rw [ha1, hactm] at hw
    rw [hf1, hfailm]
    exact hokt w hw
  obtain ⟨ha2, hi2, hf2⟩ := sendPersonalMessage_env_ok (sendPersonalMessage stm
    (Frame.chatOpened (createOrGetChat st u t).1 [u, t] t dn) u)
    (Frame.chatOpened (createOrGetChat st u t).1 [u, t] t dn) t hoktm
  constructor
  · rw [heq]
    rw [ha2, ha1, hactm]
  · rw [heq]
    rw [hf2, hf1, hfailm]

theorem handleOpenChat_env (st : MState) (u t : Nat) (dn : String) (hi : ChatInv st)
    (hoku : sendOk st u) (hokt : sendOk st t) :
    (handleOpenChat st u t dn).2.active = st.active ∧
    (handleOpenChat st u t dn).2.wsFail = st.wsFail := by
  by_cases htact : dmem st.active t = true
  · cases hptr : dget st.userChats u with
    | none =>
      have heq : handleOpenChat st u t dn = handleOpenChatCreate st u t dn := by
        simp only [handleOpenChat, htact, Bool.not_true, Bool.false_eq_true, if_false, hptr]
      rw [heq]
      exact handleOpenChatCreate_env st u t dn hi hoku hokt
    | some e =>
      cases hsess : dget st.chatSessions e with
      | none =>
        have heq : handleOpenChat st u t dn = handleOpenChatCreate st u t dn := by
          simp only [handleOpenChat, htact, Bool.not_true, Bool.false_eq_true, if_false,
            hptr, hsess]
        rw [heq]
        exact handleOpenChatCreate_env st u t dn hi hoku hokt
      | some pse =>
        cases hct : pse.contains t with
        | false =>
          have heq : handleOpenChat st u t dn = handleOpenChatCreate st u t dn := by
            simp only [handleOpenChat, htact, Bool.not_true, Bool.false_eq_true, if_false,
              hptr, hsess, hct]
          rw [heq]
          exact handleOpenChatCreate_env st u t dn hi hoku hokt
        | true =>
          have heq : handleOpenChat st u t dn
              = (.opened e, sendPersonalMessage st (.chatOpened e [u, t] t dn) u) := by
            simp only [handleOpenChat, htact, Bool.not_true, Bool.false_eq_true, if_false,
              hptr, hsess, hct, if_true]
          rw [heq]
          obtain ⟨ha, hui, hf⟩ := sendPersonalMessage_env_ok st (.chatOpened e [u, t] t dn)
            u hoku
          exact ⟨ha, hf⟩
  · have hfl : dmem st.active t = false := by
      revert htact
      cases dmem st.active t <;> simp
    have heq : handleOpenChat st u t dn
        = (.errFrame (.err "USER_NOT_FOUND" "Target user is not online"), st) := by
      simp only [handleOpenChat, hfl, Bool.not_false, if_true]
    rw [heq]
    exact ⟨rfl, rfl⟩

/-- Opening a chat when the pointer of the requester already leads to a session
containing the target returns that session's id and leaves the session map
unchanged. -/
theorem handleOpenChat_existing (st : MState) (u t : Nat) (dn : String) (hi : ChatInv st)
    (htact : dmem st.active t = true) (hut : u ≠ t) (x : Nat) (ps : List Nat)
    (hx : dget st.chatSessions x = some ps) (hu : u ∈ ps) (htp : t ∈ ps) :
    (handleOpenChat st u t dn).1 = .opened x ∧
    (handleOpenChat st u t dn).2.chatSessions = st.chatSessions := by
  have hfound : ∃ c1 ps1, st.chatSessions.find?
      (fun q => q.2.contains u && q.2.contains t) = some (c1, ps1) ∧ c1 = x := by
    have hxm : (x, ps) ∈ st.chatSessions := mem_of_dget hx
    have hsome : (st.chatSessions.find? (fun q => q.2.contains u && q.2.contains t)).isSome := by
      rw [List.find?_isSome]
      refine ⟨(x, ps), hxm, ?_⟩
      simp only [Bool.and_eq_true]
      exact ⟨by simpa using hu, by simpa using htp⟩
    obtain ⟨q, hq⟩ := Option.isSome_iff_exists.mp hsome
    obtain ⟨c1, ps1⟩ := q
    have hmem1 : (c1, ps1) ∈ st.chatSessions := List.mem_of_find?_eq_some hq
    have hpred1 := List.find?_some hq
    have hu1 : u ∈ ps1 := by
      simp only [Bool.and_eq_true] at hpred1
      simpa using hpred1.1
    have ht1 : t ∈ ps1 := by
      simp only [Bool.and_eq_true] at hpred1
      simpa using hpred1.2
    have hcs1 : dget st.chatSessions c1 = some ps1 := dget_eq_some_of_mem hi.keysNodup hmem1
    exact ⟨c1, ps1, hq, pair_unique hi hcs1 hx hut hu1 ht1 hu htp⟩
  obtain ⟨c1, ps1, hfind, hc1x⟩ := hfound
  subst hc1x
  cases hptr : dget st.userChats u with
  | none =>
    have heq : handleOpenChat st u t dn = handleOpenChatCreate st u t dn := by
      simp only [handleOpenChat, htact, Bool.not_true, Bool.false_eq_true, if_false, hptr]
    rw [heq]
    exact handleOpenChatCreate_found st u t dn hi hfind
  | some e =>
    cases hsess : dget st.chatSessions e with
    | none =>
      have heq : handleOpenChat st u t dn = handleOpenChatCreate st u t dn := by
        simp only [handleOpenChat, htact, Bool.not_true, Bool.false_eq_true, if_false,
          hptr, hsess]
      rw [heq]
      exact handleOpenChatCreate_found st u t dn hi hfind
    | some pse =>
      cases hct : pse.contains t with
      | false =>
        have heq : handleOpenChat st u t dn = handleOpenChatCreate st u t dn := by
          simp only [handleOpenChat, htact, Bool.not_true, Bool.false_eq_true, if_false,
            hptr, hsess, hct]
        rw [heq]
        exact handleOpenChatCreate_found st u t dn hi hfind
      | true =>
        have hue : u ∈ pse := hi.ptrMem u e pse hptr hsess
        have hte : t ∈ pse := by simpa using hct
        have hex : e = c1 := pair_unique hi hsess hx hut hue hte hu htp
        subst hex
        have heq : handleOpenChat st u t dn
            = (.opened e, sendPersonalMessage st (.chatOpened e [u, t] t dn) u) := by
          simp only [handleOpenChat, htact, Bool.not_true, Bool.false_eq_true, if_false,
            hptr, hsess, hct, if_true]
        constructor
        · rw [heq]
        · rw [heq]
          exact chatCore_sessions (sendPersonalMessage_chatCore st _ u)

theorem handleChatMessageBody_chatCore (st : MState) (u c : Nat) (co : Option String)
    (now : Int) :
    chatCore (handleChatMessageBody st u c co now).2
      = chatCore (
          let st1 := if dmem st.chatSessions c then st
            else { st with chatSessions := dset st.chatSessions c [] }
          let ps := (dget st1.chatSessions c).getD []
          if ps.contains u then st1
          else { st1 with chatSessions := dset st1.chatSessions c (sadd ps u) }) := by
  simp only [handleChatMessageBody]
  split
  · rfl
  · split
    · rfl
    · simp only
      rw [sendPersonalMessage_chatCore, sendToChatWithAck_chatCore]
      rfl

theorem chatMessageRepair_inv (st : MState) (u c : Nat) (hi : ChatInv st)
    (hlt : c < st.nextChat)
    (hmem : ∀ ps, dget st.chatSessions c = some ps → u ∈ ps)
    (hdead : dget st.chatSessions c = none → ∀ w, dget st.userChats w = some c → w = u) :
    ChatInv (
      let st1 := if dmem st.chatSessions c then st
        else { st with chatSessions := dset st.chatSessions c [] }
      let ps := (dget st1.chatSessions c).getD []
      if ps.contains u then st1
      else { st1 with chatSessions := dset st1.chatSessions c (sadd ps u) }) := by
  cases hcs : dget st.chatSessions c with
  | some ps =>
    have hdm : dmem st.chatSessions c = true := by simp [dmem, hcs]
    have hcontains : ps.contains u = true := by simpa using hmem ps hcs
    simp only [hdm, if_true, hcs, Option.getD_some, hcontains]
    exact hi
  | none =>
    have hdm : dmem st.chatSessions c = false := by simp [dmem, hcs]
    have hnotin : c ∉ dkeys st.chatSessions := dget_none_iff_not_mem_keys.mp hcs
    have h1 : dget (dset st.chatSessions c ([] : List Nat)) c = some [] :=
      dget_dset_self _ _ _
    have hst2 : (
        let st1 := if dmem st.chatSessions c then st
          else { st with chatSessions := dset st.chatSessions c [] }
        let ps := (dget st1.chatSessions c).getD []
        if ps.contains u then st1
        else { st1 with chatSessions := dset st1.chatSessions c (sadd ps u) })
        = { st with chatSessions := dset st.chatSessions c [u] } := by
      simp only [hdm, Bool.false_eq_true, if_false, h1, Option.getD_some]
      rw [dset_dset_same]
      rfl
    rw [hst2]
    have hgets : ∀ cw psw, dget (dset st.chatSessions c [u]) cw = some psw →
        (cw = c ∧ psw = [u]) ∨ (cw ≠ c ∧ dget st.chatSessions cw = some psw) := by
      intro cw psw hw
      by_cases hcw : cw = c
      · subst hcw
        rw [dget_dset_self] at hw
        cases hw
        exact Or.inl ⟨rfl, rfl⟩
      · rw [dget_dset_ne _ _ _ _ hcw] at hw
        exact Or.inr ⟨hcw, hw⟩
    constructor
    · rw [dkeys_dset, if_neg (by simp [hdm])]
      rw [List.nodup_append]
      refine ⟨hi.keysNodup, List.nodup_singleton _, ?_⟩
      intro x hx hx2
      rw [List.mem_singleton] at hx2
      subst hx2
      exact hnotin hx
    · intro cw hcw
      rw [dkeys_dset, if_neg (by simp [hdm])] at hcw
      rcases List.mem_append.mp hcw with hcw | hcw
      · exact hi.keysLt cw hcw
      · rw [List.mem_singleton] at hcw
        subst hcw
        exact hlt
    · exact hi.ptrLt
    · intro cw psw hw
      rcases hgets cw psw hw with ⟨_, hps⟩ | ⟨_, hw2⟩
      · subst hps
        simp
      · exact hi.nonempty cw psw hw2
    · intro w cw psw hw hsw
      rcases hgets cw psw hsw with ⟨hcw, hps⟩ | ⟨hcw, hsw2⟩
      · subst hcw
        subst hps
        have := hdead hcs w hw
        subst this
        simp
      · exact hi.ptrMem w cw psw hw hsw2
    · intro w1 w2 cw h1p h2p hdeadw
      have hcwc : cw ≠ c := by
        intro hcw
        subst hcw
        rw [dget_dset_self] at hdeadw
        cases hdeadw
      rw [dget_dset_ne _ _ _ _ hcwc] at hdeadw
      exact hi.uniqueDead w1 w2 cw h1p h2p hdeadw
    · intro c1 ps1 c2 ps2 hs1 hs2 hne x y hxy hx1 hy1 hx2 hy2
      rcases hgets c1 ps1 hs1 with ⟨hc1, hps1⟩ | ⟨hc1, hs1o⟩
      · subst hps1
        rw [List.mem_singleton] at hx1 hy1
        exact hxy (hx1.trans hy1.symm)
      · rcases hgets c2 ps2 hs2 with ⟨hc2, hps2⟩ | ⟨hc2, hs2o⟩
        · subst hps2
          rw [List.mem_singleton] at hx2 hy2
          exact hxy (hx2.trans hy2.symm)
        · exact hi.noDupPair c1 ps1 c2 ps2 hs1o hs2o hne x y hxy hx1 hy1 hx2 hy2

theorem handleChatMessageBody_inv (st : MState) (u c : Nat) (co : Option String)
    (now : Int) (hi : ChatInv st) (hlt : c < st.nextChat)
    (hmem : ∀ ps, dget st.chatSessions c = some ps → u ∈ ps)
    (hdead : dget st.chatSessions c = none → ∀ w, dget st.userChats w = some c → w = u) :
    ChatInv (handleChatMessageBody st u c co now).2 :=
  chatInv_of_chatCore_eq (handleChatMessageBody_chatCore st u c co now)
    (chatMessageRepair_inv st u c hi hlt hmem hdead)

theorem handleChatMessage_inv (st : MState) (u : Nat) (co : Option String) (now : Int)
    (hi : ChatInv st) : ChatInv (handleChatMessage st u co now).2 := by
  cases hptr : dget st.userChats u with
  | some c =>
    have heq : handleChatMessage st u co now = handleChatMessageBody st u c co now := by
      simp only [handleChatMessage, hptr]
    rw [heq]
    exact handleChatMessageBody_inv st u c co now hi (hi.ptrLt u c hptr)
      (fun ps hps => hi.ptrMem u c ps hptr hps)
      (fun hnone w hw => hi.uniqueDead w u c hw hptr hnone)
  | none =>
    cases hoth : (dkeys st.active).find? (fun v => !(v == u)) with
    | none =>
      have heq : handleChatMessage st u co now
          = (some (.err "NOT_IN_CHAT" "No other users online to chat with"), st) := by
        simp only [handleChatMessage, hptr, hoth]
      rw [heq]
      exact hi
    | some other =>
      have heq : handleChatMessage st u co now
          = handleChatMessageBody (createOrGetChat st u other).2 u
              (createOrGetChat st u other).1 co now := by
        simp only [handleChatMessage, hptr, hoth]
      rw [heq]
      obtain ⟨hinv1, ⟨ps0, hcs, hu0, hot⟩, hpu, hpt⟩ := createOrGetChat_spec st u other hi
      refine handleChatMessageBody_inv _ u _ co now hinv1
        (hinv1.keysLt _ (mem_dkeys_of_dget hcs)) ?_ ?_
      · intro ps hps
        rw [hcs] at hps
        cases hps
        exact hu0
      · intro hnone
        rw [hcs] at hnone
        cases hnone

theorem eq_of_mem_of_length_lt_two {l : List Nat} (h : l.length < 2) {x y : Nat}
    (hx : x ∈ l) (hy : y ∈ l) : x = y := by
  cases l with
  | nil => cases hx
  | cons a l2 =>
    cases l2 with
    | nil =>
      rw [List.mem_singleton] at hx hy
      rw [hx, hy]
    | cons b l3 =>
      simp only [List.length_cons] at h
      omega

theorem ptrDelete_inv {st : MState} (hi : ChatInv st) (u : Nat) :
    ChatInv { st with userChats := ddel st.userChats u } := by
  constructor
  · exact hi.keysNodup
  · exact hi.keysLt
  · intro w cw hw
    by_cases hwu : w = u
    · subst hwu
      rw [dget_ddel_self] at hw
      cases hw
    · rw [dget_ddel_ne _ _ _ hwu] at hw
      exact hi.ptrLt w cw hw
  · exact hi.nonempty
  · intro w cw psw hw hsw
    by_cases hwu : w = u
    · subst hwu
      rw [dget_ddel_self] at hw
      cases hw
    · rw [dget_ddel_ne _ _ _ hwu] at hw
      exact hi.ptrMem w cw psw hw hsw
  · intro w1 w2 cw h1 h2 hdead
    by_cases h1u : w1 = u
    · subst h1u
      rw [dget_ddel_self] at h1
      cases h1
    · by_cases h2u : w2 = u
      · subst h2u
        rw [dget_ddel_self] at h2
        cases h2
      · rw [dget_ddel_ne _ _ _ h1u] at h1
        rw [dget_ddel_ne _ _ _ h2u] at h2
        exact hi.uniqueDead w1 w2 cw h1 h2 hdead
  · exact hi.noDupPair

theorem cleanupUserChats_inv (st : MState) (u : Nat) (hi : ChatInv st) :
    ChatInv (cleanupUserChats st u) := by
  have hi1 : ChatInv { st with typingUsers := typingRemove st.typingUsers u } :=
    chatInv_of_chatCore_eq
      (show chatCore { st with typingUsers := typingRemove st.typingUsers u }
        = chatCore st from rfl) hi
  cases hptr : dget st.userChats u with
  | none =>
    have heq : cleanupUserChats st u
        = { st with typingUsers := typingRemove st.typingUsers u } := by
      simp only [cleanupUserChats, hptr]
    rw [heq]
    exact hi1
  | some c =>
    cases hsess : dget st.chatSessions c with
    | none =>
      have heq : cleanupUserChats st u
          = { st with
                typingUsers := typingRemove st.typingUsers u
                userChats := ddel st.userChats u } := by
        simp only [cleanupUserChats, hptr, hsess]
      rw [heq]
      exact ptrDelete_inv hi1 u
    | some ps =>
      by_cases hlen : (sdiscard ps u).length < 2
      · have heq : cleanupUserChats st u
            = { st with
                  typingUsers := typingRemove st.typingUsers u
                  chatSessions := ddel st.chatSessions c
                  userChats := ddel st.userChats u } := by
          simp only [cleanupUserChats, hptr, hsess, hlen, if_true]
        rw [heq]
        constructor
        · exact List.Nodup.sublist (dkeys_ddel_sublist _ _) hi.keysNodup
        · intro cw hcw
          exact hi.keysLt cw ((dkeys_ddel_sublist _ _).subset hcw)
        · intro w cw hw
          by_cases hwu : w = u
          · subst hwu
            rw [dget_ddel_self] at hw
            cases hw
          · rw [dget_ddel_ne _ _ _ hwu] at hw
            exact hi.ptrLt w cw hw
        · intro cw psw hw
          by_cases hcw : cw = c
          · subst hcw
            rw [dget_ddel_self] at hw
            cases hw
          · rw [dget_ddel_ne _ _ _ hcw] at hw
            exact hi.nonempty cw psw hw
        · intro w cw psw hw hsw
          by_cases hwu : w = u
          · subst hwu
            rw [dget_ddel_self] at hw
            cases hw
          · rw [dget_ddel_ne _ _ _ hwu] at hw
            by_cases hcw : cw = c
            · subst hcw
              rw [dget_ddel_self] at hsw
              cases hsw
            · rw [dget_ddel_ne _ _ _ hcw] at hsw
              exact hi.ptrMem w cw psw hw hsw
        · intro w1 w2 cw h1 h2 hdead
          by_cases h1u : w1 = u
          · subst h1u
            rw [dget_ddel_self] at h1
            cases h1
          · by_cases h2u : w2 = u
            · subst h2u
              rw [dget_ddel_self] at h2
              cases h2
            · rw [dget_ddel_ne _ _ _ h1u] at h1
              rw [dget_ddel_ne _ _ _ h2u] at h2
              by_cases hcw : cw = c
              · subst hcw
                have hm1 : w1 ∈ ps := hi.ptrMem w1 cw ps h1 hsess
                have hm2 : w2 ∈ ps := hi.ptrMem w2 cw ps h2 hsess
                exact eq_of_mem_of_length_lt_two hlen
                  (mem_sdiscard.mpr ⟨hm1, h1u⟩) (mem_sdiscard.mpr ⟨hm2, h2u⟩)
              · rw [dget_ddel_ne _ _ _ hcw] at hdead
                exact hi.uniqueDead w1 w2 cw h1 h2 hdead
        · intro c1 ps1 c2 ps2 hs1 hs2 hne x y hxy hx1 hy1 hx2 hy2
          by_cases hc1 : c1 = c
          · subst hc1
            rw [dget_ddel_self] at hs1
            cases hs1
          · by_cases hc2 : c2 = c
            · subst hc2
              rw [dget_ddel_self] at hs2
              cases hs2
            · rw [dget_ddel_ne _ _ _ hc1] at hs1
              rw [dget_ddel_ne _ _ _ hc2] at hs2
              exact hi.noDupPair c1 ps1 c2 ps2 hs1 hs2 hne x y hxy hx1 hy1 hx2 hy2
      · have heq : cleanupUserChats st u
            = { st with
                  typingUsers := typingRemove st.typingUsers u
                  chatSessions := dset st.chatSessions c (sdiscard ps u)
                  userChats := ddel st.userChats u } := by
          simp only [cleanupUserChats, hptr, hsess, hlen, if_false]
        rw [heq]
        have hdm : dmem st.chatSessions c = true := by simp [dmem, hsess]
        have hgets : ∀ cw psw, dget (dset st.chatSessions c (sdiscard ps u)) cw = some psw →
            (cw = c ∧ psw = sdiscard ps u) ∨ (cw ≠ c ∧ dget st.chatSessions cw = some psw) := by
          intro cw psw hw
          by_cases hcw : cw = c
          · subst hcw
            rw [dget_dset_self] at hw
            cases hw
            exact Or.inl ⟨rfl, rfl⟩
          · rw [dget_dset_ne _ _ _ _ hcw] at hw
            exact Or.inr ⟨hcw, hw⟩
        constructor
        · rw [dkeys_dset, if_pos hdm]
          exact hi.keysNodup
        · intro cw hcw
          rw [dkeys_dset, if_pos hdm] at hcw
          exact hi.keysLt cw hcw
        · intro w cw hw
          by_cases hwu : w = u
          · subst hwu
            rw [dget_ddel_self] at hw
            cases hw
          · rw [dget_ddel_ne _ _ _ hwu] at hw
            exact hi.ptrLt w cw hw
        · intro cw psw hw
          rcases hgets cw psw hw with ⟨_, hps⟩ | ⟨_, hw2⟩
          · subst hps
            intro hnil
            rw [hnil] at hlen
            simp at hlen
          · exact hi.nonempty cw psw hw2
        · intro w cw psw hw hsw
          by_cases hwu : w = u
          · subst hwu
            rw [dget_ddel_self] at hw
            cases hw
          · rw [dget_ddel_ne _ _ _ hwu] at hw
            rcases hgets cw psw hsw with ⟨hcw, hps⟩ | ⟨hcw, hsw2⟩
            · subst hcw
              subst hps
              exact mem_sdiscard.mpr ⟨hi.ptrMem w cw ps hw hsess, hwu⟩
            · exact hi.ptrMem w cw psw hw hsw2
        · intro w1 w2 cw h1 h2 hdead
          by_cases h1u : w1 = u
          · subst h1u
            rw [dget_ddel_self] at h1
            cases h1
          · by_cases h2u : w2 = u
            · subst h2u
              rw [dget_ddel_self] at h2
              cases h2
            · rw [dget_ddel_ne _ _ _ h1u] at h1
              rw [dget_ddel_ne _ _ _ h2u] at h2
              have hcw : cw ≠ c := by
                intro hcwc
                subst hcwc
                rw [dget_dset_self] at hdead
                cases hdead
              rw [dget_dset_ne _ _ _ _ hcw] at hdead
              exact hi.uniqueDead w1 w2 cw h1 h2 hdead
        · intro c1 ps1 c2 ps2 hs1 hs2 hne x y hxy hx1 hy1 hx2 hy2
          rcases hgets c1 ps1 hs1 with ⟨hc1, hps1⟩ | ⟨hc1, hs1o⟩
          · subst hc1
            subst hps1
            rcases hgets c2 ps2 hs2 with ⟨hc2, hps2⟩ | ⟨hc2, hs2o⟩
            · exact hne hc2.symm
            · exact hi.noDupPair c1 ps c2 ps2 hsess hs2o hne x y hxy
                (mem_sdiscard.mp hx1).1 (mem_sdiscard.mp hy1).1 hx2 hy2
          · rcases hgets c2 ps2 hs2 with ⟨hc2, hps2⟩ | ⟨hc2, hs2o⟩
            · subst hc2
              subst hps2
              exact hi.noDupPair c1 ps1 c2 ps hs1o hsess hne x y hxy hx1 hy1
                (mem_sdiscard.mp hx2).1 (mem_sdiscard.mp hy2).1
            · exact hi.noDupPair c1 ps1 c2 ps2 hs1o hs2o hne x y hxy hx1 hy1 hx2 hy2

theorem dmem_false_of_not_true {m : List (Nat × Nat)} {k : Nat}
    (h : ¬ dmem m k = true) : dmem m k = false := by
  revert h
  cases dmem m k <;> simp

theorem handleOpenChat_not_found (st : MState) (u t : Nat) (dn : String)
    (hfl : dmem st.active t = false) :
    handleOpenChat st u t dn
      = (.errFrame (.err "USER_NOT_FOUND" "Target user is not online"), st) := by
  simp only [handleOpenChat, hfl, Bool.not_false, if_true]

theorem handleOpenChat_inv (st : MState) (u t : Nat) (dn : String) (hi : ChatInv st) :
    ChatInv (handleOpenChat st u t dn).2 := by
  by_cases htact : dmem st.active t = true
  · exact (handleOpenChat_spec st u t dn hi htact).1
  · rw [handleOpenChat_not_found st u t dn (dmem_false_of_not_true htact)]
    exact hi

/-- Every step of the system preserves the session bookkeeping invariant. -/
theorem chatInv_step {s t : MState} (h : Step s t) (hi : ChatInv s) : ChatInv t := by
  cases h with
  | hello ws u dn sid now =>
    exact chatInv_of_chatCore_eq (websocketHelloPath_chatCore s ws u dn sid now) hi
  | fullConnect ws u dn now =>
    exact chatInv_of_chatCore_eq (connectOp_chatCore s ws u dn now) hi
  | restore u => exact restoreUserChatSession_inv s u hi
  | disconnect u =>
    exact chatInv_of_chatCore_eq (disconnectOp_chatCore s u) hi
  | delayedCleanup u hguard => exact cleanupUserChats_inv s u hi
  | openChat u target dn => exact handleOpenChat_inv s u target dn hi
  | chatMessage u content now => exact handleChatMessage_inv s u content now hi
  | typing u b =>
    exact chatInv_of_chatCore_eq (handleTyping_chatCore s u b) hi
  | ping u now =>
    exact chatInv_of_chatCore_eq (handlePing_chatCore s u now) hi
  | pongStep u now =>
    exact chatInv_of_chatCore_eq (handlePong_chatCore s u now) hi
  | routerPing ws =>
    exact chatInv_of_chatCore_eq (routerPingBranch_chatCore s ws) hi
  | transportFail ws e =>
    exact chatInv_of_chatCore_eq
      (show chatCore { s with wsFail := dset s.wsFail ws e } = chatCore s from rfl) hi

/-- Every reachable manager state satisfies the session bookkeeping
invariant. -/
theorem chatInv_of_reachable {s : MState} (h : Reachable s) : ChatInv s := by
  induction h with
  | init => exact chatInv_init
  | step hr hstep ih => exact chatInv_step hstep ih

/-! ## Concrete states used by the claim theorems -/

/-- Identities 1 (alice, transport 100) and 2 (bob, transport 101) registered
through the HELLO path at time 0; no chats, no transport failures. -/
def twoUserState : MState :=
  websocketHelloPath (websocketHelloPath initState 100 1 "alice" none 0) 101 2 "bob" none 0

theorem reachable_twoUserState : Reachable twoUserState :=
  Reachable.step (Reachable.step Reachable.init
    (Step.hello initState 100 1 "alice" none 0))
    (Step.hello (websocketHelloPath initState 100 1 "alice" none 0) 101 2 "bob" none 0)

/-- Users 1 and 2 after 1 opened a chat with 2 (chat id 0). -/
def chattingState : MState :=
  (handleOpenChat twoUserState 1 2 "bob").2

theorem reachable_chattingState : Reachable chattingState :=
  Reachable.step reachable_twoUserState (Step.openChat twoUserState 1 2 "bob")

/-! ## C1 — rate limiter -/

set_option maxRecDepth 10000 in
/-- C1 counterexample: after a burst of 60 accepted messages at time 0 from a
limiter created at time 0, a call at time 100 is still rejected even though
every stored timestamp is older than 60 seconds, while the spec's per-call
evict-then-admit sliding window (allowSpecMessage) accepts it; check_rate_limit
runs no eviction because only 100 seconds have passed since the last sweep. -/
theorem c1_rate_limiter_counterexample :
    (checkRateLimit rlAfterBurst 0 "MSG" 100).1 = false ∧
    (allowSpecMessage rlAfterBurst 0 100).1 = true ∧
    rlAfterBurst.messageStamps = [(0, List.replicate 60 (0 : Int))] ∧
    rlAfterBurst.lastCleanup = 0 := by
  refine ⟨?_, ?_, ?_, ?_⟩ <;> decide

/-- C1 (amended): for the message category, check_rate_limit does not evict per
call: within 300 seconds of the last periodic sweep it admits exactly when the
identity's stored queue holds fewer than 60 timestamps — regardless of their
age — recording the new timestamp on admission and changing nothing on
rejection; timestamps older than 60 seconds are evicted only by the periodic
sweep, which runs at the start of a call arriving more than 300 seconds after
the previous sweep. -/
theorem c1_rate_limiter_amended (rl : RLState) (u : Nat) (now : Int)
    (h : now - rl.lastCleanup ≤ cleanupInterval) :
    ((checkRateLimit rl u "MSG" now).1 = true
        ↔ ((dget rl.messageStamps u).getD []).length < messageLimit) ∧
    ((checkRateLimit rl u "MSG" now).1 = false → (checkRateLimit rl u "MSG" now).2 = rl) ∧
    ((checkRateLimit rl u "MSG" now).1 = true →
      (checkRateLimit rl u "MSG" now).2
        = { rl with messageStamps := dset rl.messageStamps u (((dget rl.messageStamps u).getD []) ++ [now]) }) := by
  have hnogt : ¬ (now - rl.lastCleanup > cleanupInterval) := by omega
  have hbase : checkRateLimit rl u "MSG" now
      = if messageLimit ≤ ((dget rl.messageStamps u).getD []).length then (false, rl)
        else (true, { rl with messageStamps := dset rl.messageStamps u (((dget rl.messageStamps u).getD []) ++ [now]) }) := by
    simp only [checkRateLimit, if_neg hnogt,
      if_pos (by decide : (("MSG" : String) == "MSG") = true)]
  by_cases hlen : messageLimit ≤ ((dget rl.messageStamps u).getD []).length
  · rw [hbase, if_pos hlen]
    refine ⟨⟨fun hcontra => by simp at hcontra, fun hlt => absurd hlen (by omega)⟩,
      fun _ => rfl, fun hcontra => by simp at hcontra⟩
  · rw [hbase, if_neg hlen]
    refine ⟨⟨fun _ => by omega, fun _ => rfl⟩,
      fun hcontra => by simp at hcontra, fun _ => rfl⟩

set_option maxRecDepth 10000 in
theorem c1_rate_limiter_amended_witness :
    (100 : Int) - rlAfterBurst.lastCleanup ≤ cleanupInterval ∧
    (checkRateLimit rlAfterBurst 0 "MSG" 100).2 = rlAfterBurst :=
  ⟨by decide, (c1_rate_limiter_amended rlAfterBurst 0 100 (by decide)).2.1 (by decide)⟩

/-! ## C2 and C10 — MSG validation -/

theorem handleChatMessageBody_empty (st : MState) (u c : Nat) (ps : List Nat)
    (now : Int) (hsess : dget st.chatSessions c = some ps) (hmem : u ∈ ps) :
    handleChatMessageBody st u c (some "") now
      = (some (.err "VALIDATION" "Message content cannot be empty"), st) := by
  have hdm : dmem st.chatSessions c = true := by simp [dmem, hsess]
  have hcont : ps.contains u = true := by simpa using hmem
  simp only [handleChatMessageBody, hdm, if_true, hsess, Option.getD_some, hcont]
  rfl

theorem handleChatMessageBody_invalid (st : MState) (u c : Nat) (ps : List Nat)
    (content : String) (now : Int)
    (hsess : dget st.chatSessions c = some ps) (hmem : u ∈ ps)
    (hbad : content.isEmpty = true ∨ maxMessageLength < content.length) :
    (∃ m, (handleChatMessageBody st u c (some content) now).1
      = some (.err "VALIDATION" m)) ∧
    (handleChatMessageBody st u c (some content) now).2 = st := by
  have hdm : dmem st.chatSessions c = true := by simp [dmem, hsess]
  have hcont : ps.contains u = true := by simpa using hmem
  rcases hbad with hb | hb
  · have hbody : handleChatMessageBody st u c (some content) now
        = (some (.err "VALIDATION" "Message content cannot be empty"), st) := by
      simp only [handleChatMessageBody, hdm, if_true, hsess, Option.getD_some, hcont,
        hb, if_true]
    rw [hbody]
    exact ⟨⟨_, rfl⟩, rfl⟩
  · have hbfalse : content.isEmpty = false := by
      cases hie : content.isEmpty
      · rfl
      · exfalso
        have h0 : content = "" := (String.isEmpty_iff content).mp hie
        rw [h0] at hb
        simp [maxMessageLength] at hb
    have hbody : handleChatMessageBody st u c (some content) now
        = (some (.err "VALIDATION" "Message content cannot exceed 1000 characters"), st) := by
      simp only [handleChatMessageBody, hdm, if_true, hsess, Option.getD_some, hcont,
        hbfalse, Bool.false_eq_true, if_false, hb, if_true]
    rw [hbody]
    exact ⟨⟨_, rfl⟩, rfl⟩

set_option maxRecDepth 10000 in
/-- C2 counterexample: with identities 1 and 2 online and 1 holding no
active-chat pointer, an empty MSG from 1 is answered with Error(VALIDATION)
yet mutates chat-session state: the auto-pairing fallback creates session 0
with participants 1 and 2 before the content check runs. -/
theorem c2_msg_validation_counterexample :
    dget twoUserState.userChats 1 = none ∧
    twoUserState.chatSessions = [] ∧
    (handleChatMessage twoUserState 1 (some "") 5).1
      = some (.err "VALIDATION" "Message content cannot be empty") ∧
    (handleChatMessage twoUserState 1 (some "") 5).2.chatSessions = [(0, [1, 2])] ∧
    dget (handleChatMessage twoUserState 1 (some "") 5).2.userChats 1 = some 0 := by
  refine ⟨?_, ?_, ?_, ?_, ?_⟩ <;> decide

/-- C2 (amended): for a sender whose active-chat pointer resolves to a session
that contains the sender, handling a MSG frame whose content is empty or
longer than 1000 characters returns Error(VALIDATION) and leaves the entire
manager state unchanged; for a sender without such a pointer the handler may
mutate session state (auto-pairing or membership repair) before returning the
validation error. -/
theorem c2_msg_validation_amended (st : MState) (u c : Nat) (ps : List Nat)
    (content : String) (now : Int)
    (hptr : dget st.userChats u = some c)
    (hsess : dget st.chatSessions c = some ps)
    (hmem : u ∈ ps)
    (hbad : content.isEmpty = true ∨ maxMessageLength < content.length) :
    (∃ m, (handleChatMessage st u (some content) now).1 = some (.err "VALIDATION" m)) ∧
    (handleChatMessage st u (some content) now).2 = st := by
  have heq : handleChatMessage st u (some content) now
      = handleChatMessageBody st u c (some content) now := by
    simp only [handleChatMessage, hptr]
  rw [heq]
  exact handleChatMessageBody_invalid st u c ps content now hsess hmem hbad

set_option maxRecDepth 10000 in
theorem c2_msg_validation_amended_witness :
    dget chattingState.userChats 1 = some 0 ∧
    dget chattingState.chatSessions 0 = some [1, 2] ∧
    (1 : Nat) ∈ [1, 2] ∧
    (handleChatMessage chattingState 1 (some "") 7).2 = chattingState :=
  ⟨by decide, by decide, by decide,
    (c2_msg_validation_amended chattingState 1 0 [1, 2] "" 7 (by decide) (by decide)
      (by decide) (Or.inl (by decide))).2⟩

theorem handleChatMessage_none_eq_empty (st : MState) (u : Nat) (now : Int) :
    handleChatMessage st u none now = handleChatMessage st u (some "") now := by
  have hbody : ∀ (s : MState) (c : Nat), handleChatMessageBody s u c none now
      = handleChatMessageBody s u c (some "") now := by
    intro s c
    simp only [handleChatMessageBody, Option.getD_none, Option.getD_some]
  cases hp : dget st.userChats u with
  | some c =>
    have h1 : handleChatMessage st u none now = handleChatMessageBody st u c none now := by
      simp only [handleChatMessage, hp]
    have h2 : handleChatMessage st u (some "") now
        = handleChatMessageBody st u c (some "") now := by
      simp only [handleChatMessage, hp]
    rw [h1, h2, hbody]
  | none =>
    cases ho : (dkeys st.active).find? (fun v => !(v == u)) with
    | none =>
      have h1 : handleChatMessage st u none now
          = (some (.err "NOT_IN_CHAT" "No other users online to chat with"), st) := by
        simp only [handleChatMessage, hp, ho]
      have h2 : handleChatMessage st u (some "") now
          = (some (.err "NOT_IN_CHAT" "No other users online to chat with"), st) := by
        simp only [handleChatMessage, hp, ho]
      rw [h1, h2]
    | some other =>
      have h1 : handleChatMessage st u none now
          = handleChatMessageBody (createOrGetChat st u other).2 u
              (createOrGetChat st u other).1 none now := by
        simp only [handleChatMessage, hp, ho]
      have h2 : handleChatMessage st u (some "") now
          = handleChatMessageBody (createOrGetChat st u other).2 u
              (createOrGetChat st u other).1 (some "") now := by
        simp only [handleChatMessage, hp, ho]
      rw [h1, h2, hbody]

/-- C10: a MSG frame with no content field is handled exactly like one whose
content is the empty string — data.get substitutes the empty string — and for
a sender inside their active chat the outcome is Error(VALIDATION) for empty
content, not a distinct missing-field error, with the state untouched. -/
theorem c10_missing_content (st : MState) (u c : Nat) (ps : List Nat) (now : Int)
    (hptr : dget st.userChats u = some c)
    (hsess : dget st.chatSessions c = some ps)
    (hmem : u ∈ ps) :
    handleChatMessage st u none now = handleChatMessage st u (some "") now ∧
    (handleChatMessage st u none now).1
      = some (.err "VALIDATION" "Message content cannot be empty") ∧
    (handleChatMessage st u none now).2 = st := by
  have hgen := handleChatMessage_none_eq_empty st u now
  have heq : handleChatMessage st u (some "") now
      = handleChatMessageBody st u c (some "") now := by
    simp only [handleChatMessage, hptr]
  have hbody := handleChatMessageBody_empty st u c ps now hsess hmem
  refine ⟨hgen, ?_, ?_⟩
  · rw [hgen, heq, hbody]
  · rw [hgen, heq, hbody]

set_option maxRecDepth 10000 in
theorem c10_missing_content_witness :
    dget chattingState.userChats 1 = some 0 ∧
    dget chattingState.chatSessions 0 = some [1, 2] ∧
    (1 : Nat) ∈ [1, 2] ∧
    (handleChatMessage chattingState 1 none 9).2 = chattingState :=
  ⟨by decide, by decide, by decide,
    (c10_missing_content chattingState 1 0 [1, 2] 9 (by decide) (by decide)
      (by decide)).2.2⟩

/-! ## C3 — session size invariant -/

/-- State reached by: 1 and 2 connect and open a chat, 1 disconnects, the
delayed cleanup fires (tearing down chat 0 and leaving 2's pointer dangling),
then 2 sends a message, which recreates session 0 with 2 as its only
participant. -/
def c3State : MState :=
  (handleChatMessage (cleanupUserChats (disconnectOp chattingState 1) 1) 2
    (some "hi") 10).2

set_option maxRecDepth 10000 in
/-- C3 counterexample: c3State is reachable by the manager's operations and its
session map contains chat 0 with the single participant 2 — an operation
(handle_chat_message through a dangling active-chat pointer) left a session
with fewer than two participants standing. -/
theorem c3_min_two_participants_counterexample :
    Reachable c3State ∧ dget c3State.chatSessions 0 = some [2] := by
  constructor
  · exact Reachable.step (Reachable.step (Reachable.step reachable_chattingState
      (Step.disconnect chattingState 1))
      (Step.delayedCleanup (disconnectOp chattingState 1) 1 (by decide)))
      (Step.chatMessage (cleanupUserChats (disconnectOp chattingState 1) 1) 2
        (some "hi") 10)
  · decide

/-- C3 (amended): at every reachable state, every chat session present in the
session map has at least one participant; the disconnect-cleanup path tears
down any session it leaves with fewer than two participants, but the message
handler can recreate a session containing only the sender from a dangling
active-chat pointer, so two participants are not guaranteed. -/
theorem c3_session_nonempty_amended (s : MState) (h : Reachable s) (c : Nat)
    (ps : List Nat) (hs : dget s.chatSessions c = some ps) : ps ≠ [] :=
  (chatInv_of_reachable h).nonempty c ps hs

set_option maxRecDepth 10000 in
theorem c3_session_nonempty_amended_witness :
    Reachable chattingState ∧ dget chattingState.chatSessions 0 ≠ some [] :=
  ⟨reachable_chattingState,
    fun hcontra =>
      (c3_session_nonempty_amended chattingState reachable_chattingState 0 [] hcontra) rfl⟩

/-! ## C4 — transport replacement on re-registration -/

theorem sendPersonalMessage_wsClosed (st : MState) (f : Frame) (u : Nat) :
    (sendPersonalMessage st f u).wsClosed = st.wsClosed := by
  cases hg : dget st.active u with
  | none => simp [sendPersonalMessage, hg]
  | some ws =>
    cases hf : dget st.wsFail ws with
    | none => simp [sendPersonalMessage, wsSendRaw, hg, hf]
    | some e =>
      cases e <;>
        simp [sendPersonalMessage, wsSendRaw, hg, hf, removeActive, cleanupDisconnectedUser]

theorem sendEach_wsClosed (f : Frame) (u : Nat) (rs : List Nat) (st : MState) :
    (sendEach st f u rs).wsClosed = st.wsClosed := by
  induction rs generalizing st with
  | nil => rfl
  | cons r rs ih =>
    rw [sendEach_cons]
    by_cases hr : (r == u) = true
    · rw [if_pos hr, ih]
    · rw [if_neg hr, ih, sendPersonalMessage_wsClosed]

theorem broadcastPresenceUpdate_wsClosed (st : MState) (a : String) (u : Nat)
    (dn : String) : (broadcastPresenceUpdate st a u dn).wsClosed = st.wsClosed := by
  unfold broadcastPresenceUpdate
  by_cases h1 : (a == "connect") = true
  · rw [if_pos h1]
    by_cases h2 : 1 < (sendPersonalMessage st (.presence (presenceSnapshot st u) "connect") u).active.length
    · rw [if_pos h2, sendEach_wsClosed, sendPersonalMessage_wsClosed]
    · rw [if_neg h2, sendPersonalMessage_wsClosed]
  · rw [if_neg h1]
    by_cases h2 : (a == "disconnect") = true
    · rw [if_pos h2, sendEach_wsClosed]
    · rw [if_neg h2]

theorem connectWithoutBroadcast_wsClosed (st : MState) (ws u : Nat) (dn : String)
    (sid : Option String) (now : Int) :
    (connectWithoutBroadcast st ws u dn sid now).wsClosed = st.wsClosed := by
  unfold connectWithoutBroadcast
  cases sid <;> rfl

theorem disconnectOp_wsClosed (st : MState) (u : Nat) :
    (disconnectOp st u).wsClosed = st.wsClosed := by
  unfold disconnectOp
  cases hg : dget st.active u with
  | none => rfl
  | some ws =>
    show (broadcastPresenceUpdate (cleanupDisconnectedUser (removeActive st u) u)
      "disconnect" u ((dget st.userInfo u).getD "Unknown")).wsClosed = st.wsClosed
    rw [broadcastPresenceUpdate_wsClosed]
    rfl

theorem websocketHelloPath_wsClosed (st : MState) (ws u : Nat) (dn : String)
    (sid : Option String) (now : Int) :
    (websocketHelloPath st ws u dn sid now).wsClosed = st.wsClosed := by
  cases hf : dget (connectWithoutBroadcast st ws u dn sid now).wsFail ws with
  | none =>
    simp only [websocketHelloPath, wsSendRaw, hf]
    rw [broadcastPresenceUpdate_wsClosed]
    exact connectWithoutBroadcast_wsClosed st ws u dn sid now
  | some e =>
    simp only [websocketHelloPath, wsSendRaw, hf]
    rw [disconnectOp_wsClosed]
    exact connectWithoutBroadcast_wsClosed st ws u dn sid now

/-- The state after registering identity 7 twice through the HELLO path, with
two distinct healthy transports. -/
def helloTwiceState : MState :=
  websocketHelloPath (websocketHelloPath initState 100 7 "carol" none 0) 101 7 "carol" none 5

set_option maxRecDepth 10000 in
/-- C4 counterexample: identity 7 holds live transport 100; re-registering it
through the HELLO handshake path stores transport 101 but closes nothing — the
previous transport is simply dropped from the registry without a close. -/
theorem c4_replace_counterexample :
    dget (websocketHelloPath initState 100 7 "carol" none 0).active 7 = some 100 ∧
    dget (websocketHelloPath initState 100 7 "carol" none 0).wsFail 100 = none ∧
    dget helloTwiceState.active 7 = some 101 ∧
    helloTwiceState.wsClosed = [] := by
  refine ⟨?_, ?_, ?_, ?_⟩ <;> decide

/-- C4 (amended): ConnectionManager.connect closes a previous live transport of
the same identity (reason "New connection from same user") before storing the
new one, but the HELLO handshake path registers through
connect_without_broadcast, which overwrites the registry entry and never closes
any transport. -/
theorem c4_replace_amended (st : MState) (ws u : Nat) (dn : String) (now : Int) :
    (∀ old, dget st.active u = some old → dmem st.wsFail old = false →
      dget (connectOp st ws u dn now).wsClosed old
        = some "New connection from same user") ∧
    (∀ sid, (websocketHelloPath st ws u dn sid now).wsClosed = st.wsClosed) := by
  constructor
  · intro old hold hfail
    have heq : connectOp st ws u dn now
        = broadcastPresenceUpdate
            (connectWithoutBroadcast
              { st with wsClosed := dset st.wsClosed old "New connection from same user" }
              ws u dn none now) "connect" u dn := by
      simp only [connectOp, hold, closeTransport, hfail, Bool.false_eq_true, if_false]
    rw [heq, broadcastPresenceUpdate_wsClosed, connectWithoutBroadcast_wsClosed]
    exact dget_dset_self _ _ _
  · intro sid
    exact websocketHelloPath_wsClosed st ws u dn sid now

set_option maxRecDepth 10000 in
theorem c4_replace_amended_witness :
    dget (websocketHelloPath initState 100 7 "carol" none 0).active 7 = some 100 ∧
    dmem (websocketHelloPath initState 100 7 "carol" none 0).wsFail 100 = false ∧
    dget (connectOp (websocketHelloPath initState 100 7 "carol" none 0) 101 7 "carol" 5).wsClosed 100
      = some "New connection from same user" :=
  ⟨by decide, by decide,
    (c4_replace_amended (websocketHelloPath initState 100 7 "carol" none 0) 101 7
      "carol" 5).1 100 (by decide) (by decide)⟩

/-! ## C5 — ping/pong liveness on the router path -/

set_option maxRecDepth 10000 in
/-- C5: on the dispatch path actually used for established connections, the
router answers an inbound PING with a raw PONG and drops inbound PONG frames
without any action, and in neither case is the identity's last-ping timestamp
refreshed — the manager's handle_ping and handle_pong, which do refresh it,
are short-circuited before dispatch.  The last two conjuncts evaluate the
branch at a concrete established connection (identity 1, transport 100,
last-ping recorded at time 0). -/
theorem c5_router_ping_no_liveness_refresh :
    (∀ (st : MState) (ws : Nat), (routerPingBranch st ws).lastPing = st.lastPing) ∧
    (∀ st : MState, routerPongBranch st = st) ∧
    (routerPingBranch twoUserState 100).lastPing = twoUserState.lastPing ∧
    dget twoUserState.lastPing 1 = some 0 ∧
    dget (routerPingBranch twoUserState 100).wsOut 100
      = some (((dget twoUserState.wsOut 100).getD []) ++ [Frame.pong]) := by
  refine ⟨?_, fun st => rfl, ?_, ?_, ?_⟩
  · intro st ws
    cases hf : dget st.wsFail ws with
    | none => simp [routerPingBranch, wsSendRaw, hf]
    | some e => cases e <;> simp [routerPingBranch, wsSendRaw, hf]
  · decide
  · decide
  · decide

/-! ## Delivery-layer facts -/

theorem sendPersonalMessage_ok_eq (st : MState) (f : Frame) (v w : Nat)
    (hw : dget st.active v = some w) (hf : dget st.wsFail w = none) :
    sendPersonalMessage st f v
      = { st with wsOut := dset st.wsOut w (((dget st.wsOut w).getD []) ++ [f]) } := by
  simp [sendPersonalMessage, wsSendRaw, hw, hf]

theorem sendPersonalMessage_facts (st : MState) (f : Frame) (v : Nat) :
    (sendPersonalMessage st f v).wsFail = st.wsFail ∧
    (∀ b, b ≠ v → dget (sendPersonalMessage st f v).active b = dget st.active b) ∧
    (∀ w fr, fr ∈ ((dget st.wsOut w).getD []) →
      fr ∈ ((dget (sendPersonalMessage st f v).wsOut w).getD [])) ∧
    (∀ w, dget st.active v = some w → dget st.wsFail w = none →
      f ∈ ((dget (sendPersonalMessage st f v).wsOut w).getD [])) ∧
    (∀ w e, dget st.active v = some w → dget st.wsFail w = some e →
      dmem (sendPersonalMessage st f v).active v = false) := by
  cases hg : dget st.active v with
  | none =>
    have heq : sendPersonalMessage st f v = st := by simp [sendPersonalMessage, hg]
    rw [heq]
    refine ⟨rfl, fun b _ => rfl, fun w fr h => h, ?_, ?_⟩
    · intro w hw
      cases hw
    · intro w e hw
      cases hw
  | some ws =>
    cases hf : dget st.wsFail ws with
    | none =>
      have heq := sendPersonalMessage_ok_eq st f v ws hg hf
      rw [heq]
      refine ⟨rfl, fun b _ => rfl, ?_, ?_, ?_⟩
      · intro w fr hfr
        by_cases hww : w = ws
        · subst hww
          show fr ∈ ((dget (dset st.wsOut w (((dget st.wsOut w).getD []) ++ [f])) w).getD [])
          rw [dget_dset_self]
          simp only [Option.getD_some]
          exact List.mem_append.mpr (Or.inl hfr)
        · show fr ∈ ((dget (dset st.wsOut ws (((dget st.wsOut ws).getD []) ++ [f])) w).getD [])
          rw [dget_dset_ne _ _ _ _ hww]
          exact hfr
      · intro w hw _
        injection hw with hw
        subst hw
        show f ∈ ((dget (dset st.wsOut ws (((dget st.wsOut ws).getD []) ++ [f])) ws).getD [])
        rw [dget_dset_self]
        simp
      · intro w e hw hwf
        injection hw with hw
        subst hw
        rw [hf] at hwf
        cases hwf
    | some e0 =>
      have hact : (sendPersonalMessage st f v).active = ddel st.active v := by
        cases e0 <;> simp [sendPersonalMessage, wsSendRaw, hg, hf, removeActive,
          cleanupDisconnectedUser]
      have hrest : (sendPersonalMessage st f v).wsFail = st.wsFail ∧
          (sendPersonalMessage st f v).wsOut = st.wsOut := by
        cases e0 <;> simp [sendPersonalMessage, wsSendRaw, hg, hf, removeActive,
          cleanupDisconnectedUser]
      refine ⟨hrest.1, ?_, ?_, ?_, ?_⟩
      · intro b hb
        rw [hact]
        exact dget_ddel_ne _ _ _ hb
      · intro w fr hfr
        rw [hrest.2]
        exact hfr
      · intro w hw hwf
        injection hw with hw
        subst hw
        rw [hf] at hwf
        cases hwf
      · intro w e1 hw hwf
        rw [hact]
        simp [dmem, dget_ddel_self]

/-- The per-recipient step of send_to_chat_with_ack. -/
def ackFoldStep (f : Frame) (ex : Option Nat) : (Bool × MState) → Nat → (Bool × MState) :=
  fun acc v =>
    if some v == ex then acc
    else
      let s1 := sendPersonalMessage acc.2 f v
      (acc.1 && dmem s1.active v, s1)

theorem sendToChatWithAck_eq (st : MState) (c : Nat) (f : Frame) (ex : Option Nat) :
    sendToChatWithAck st c f ex
      = match dget st.chatSessions c with
        | none => (false, st)
        | some ps => ps.foldl (ackFoldStep f ex) (true, st) := rfl

theorem ackFold_mono (f : Frame) (ex : Option Nat) (ps : List Nat) :
    ∀ (acc : Bool × MState) (w : Nat) (fr : Frame),
    fr ∈ ((dget acc.2.wsOut w).getD []) →
    fr ∈ ((dget (ps.foldl (ackFoldStep f ex) acc).2.wsOut w).getD []) := by
  induction ps with
  | nil => exact fun acc w fr h => h
  | cons v vs ih =>
    intro acc w fr hfr
    rw [List.foldl_cons]
    apply ih
    unfold ackFoldStep
    by_cases hv : (some v == ex) = true
    · rw [if_pos hv]
      exact hfr
    · rw [if_neg hv]
      exact (sendPersonalMessage_facts acc.2 f v).2.2.1 w fr hfr

theorem ackFold_flag_false (f : Frame) (ex : Option Nat) (ps : List Nat) :
    ∀ (acc : Bool × MState), acc.1 = false →
    (ps.foldl (ackFoldStep f ex) acc).1 = false := by
  induction ps with
  | nil => exact fun acc h => h
  | cons v vs ih =>
    intro acc h
    rw [List.foldl_cons]
    apply ih
    unfold ackFoldStep
    by_cases hv : (some v == ex) = true
    · rw [if_pos hv]
      exact h
    · rw [if_neg hv]
      simp only [h, Bool.false_and]

theorem ackFold_delivers (f : Frame) (ex : Option Nat) (ps : List Nat) :
    ∀ (acc : Bool × MState) (b wb : Nat),
    dget acc.2.active b = some wb → dget acc.2.wsFail wb = none →
    (some b == ex) = false → b ∈ ps →
    f ∈ ((dget (ps.foldl (ackFoldStep f ex) acc).2.wsOut wb).getD []) := by
  induction ps with
  | nil =>
    intro acc b wb _ _ _ hbin
    cases hbin
  | cons v vs ih =>
    intro acc b wb hact hok hbex hbin
    rw [List.foldl_cons]
    by_cases hv : (some v == ex) = true
    · have hbv : b ≠ v := by
        intro hbv
        subst hbv
        rw [hv] at hbex
        cases hbex
      have hbin2 : b ∈ vs := by
        rcases List.mem_cons.mp hbin with h | h
        · exact absurd h hbv
        · exact h
      have hstep : ackFoldStep f ex acc v = acc := by
        unfold ackFoldStep
        rw [if_pos hv]
      rw [hstep]
      exact ih acc b wb hact hok hbex hbin2
    · have hstep : ackFoldStep f ex acc v
          = (acc.1 && dmem (sendPersonalMessage acc.2 f v).active v,
             sendPersonalMessage acc.2 f v) := by
        unfold ackFoldStep
        rw [if_neg hv]
      rw [hstep]
      obtain ⟨hwf, hactoth, hmono, hdeliv, hfailrem⟩ :=
        sendPersonalMessage_facts acc.2 f v
      by_cases hbv : b = v
      · subst hbv
        have hgot : f ∈ ((dget (sendPersonalMessage acc.2 f b).wsOut wb).getD []) :=
          hdeliv wb hact hok
        exact ackFold_mono f ex vs _ wb f hgot
      · have hact2 : dget (sendPersonalMessage acc.2 f v).active b = some wb := by
          rw [hactoth b hbv]
          exact hact
        have hok2 : dget (sendPersonalMessage acc.2 f v).wsFail wb = none := by
          rw [hwf]
          exact hok
        have hbin2 : b ∈ vs := by
          rcases List.mem_cons.mp hbin with h | h
          · exact absurd h hbv
          · exact h
        exact ih _ b wb hact2 hok2 hbex hbin2

theorem ackFold_fails (f : Frame) (ex : Option Nat) (ps : List Nat) :
    ∀ (acc : Bool × MState) (a wa : Nat) (e : WsExc),
    dget acc.2.active a = some wa → dget acc.2.wsFail wa = some e →
    (some a == ex) = false → a ∈ ps →
    (ps.foldl (ackFoldStep f ex) acc).1 = false := by
  induction ps with
  | nil =>
    intro acc a wa e _ _ _ hain
    cases hain
  | cons v vs ih =>
    intro acc a wa e hact hfail haex hain
    rw [List.foldl_cons]
    by_cases hv : (some v == ex) = true
    · have hav : a ≠ v := by
        intro hav
        subst hav
        rw [hv] at haex
        cases haex
      have hain2 : a ∈ vs := by
        rcases List.mem_cons.mp hain with h | h
        · exact absurd h hav
        · exact h
      have hstep : ackFoldStep f ex acc v = acc := by
        unfold ackFoldStep
        rw [if_pos hv]
      rw [hstep]
      exact ih acc a wa e hact hfail haex hain2
    · have hstep : ackFoldStep f ex acc v
          = (acc.1 && dmem (sendPersonalMessage acc.2 f v).active v,
             sendPersonalMessage acc.2 f v) := by
        unfold ackFoldStep
        rw [if_neg hv]
      rw [hstep]
      obtain ⟨hwf, hactoth, hmono, hdeliv, hfailrem⟩ :=
        sendPersonalMessage_facts acc.2 f v
      by_cases hav : a = v
      · subst hav
        have hflag : dmem (sendPersonalMessage acc.2 f a).active a = false :=
          hfailrem wa e hact hfail
        apply ackFold_flag_false
        simp only [hflag, Bool.and_false]
      · have hact2 : dget (sendPersonalMessage acc.2 f v).active a = some wa := by
          rw [hactoth a hav]
          exact hact
        have hfail2 : dget (sendPersonalMessage acc.2 f v).wsFail wa = some e := by
          rw [hwf]
          exact hfail
        have hain2 : a ∈ vs := by
          rcases List.mem_cons.mp hain with h | h
          · exact absurd h hav
          · exact h
        exact ih _ a wa e hact2 hfail2 haex hain2

/-! ## C8 — non-throwing delivery and broadcast isolation -/

/-- C8: send_personal_message never raises back to its caller — in the
Except-valued view every transport outcome, including WebSocketDisconnect and
generic send errors, is caught and returns ok — and a participant whose
transport raises mid-broadcast does not prevent delivery to a healthy sibling:
send_to_chat_with_ack still appends the frame to the healthy recipient's
transport and reports the failure as a non-delivered (false) result. -/
theorem c8_send_failure_isolation (st : MState) (c : Nat) (f : Frame) (ex : Option Nat)
    (ps : List Nat) (a b wa wb : Nat) (e : WsExc)
    (hsess : dget st.chatSessions c = some ps)
    (ha : a ∈ ps) (hb : b ∈ ps)
    (haex : (some a == ex) = false) (hbex : (some b == ex) = false)
    (hwa : dget st.active a = some wa) (hfa : dget st.wsFail wa = some e)
    (hwb : dget st.active b = some wb) (hfb : dget st.wsFail wb = none) :
    (∀ (s : MState) (fr : Frame) (v : Nat),
      ∃ s2, sendPersonalMessageE s fr v = .ok s2 ∧ sendPersonalMessage s fr v = s2) ∧
    (sendToChatWithAck st c f ex).1 = false ∧
    f ∈ ((dget (sendToChatWithAck st c f ex).2.wsOut wb).getD []) := by
  refine ⟨?_, ?_, ?_⟩
  · intro s fr v
    cases hg : dget s.active v with
    | none =>
      refine ⟨s, ?_, ?_⟩ <;> simp [sendPersonalMessageE, sendPersonalMessage, hg]
    | some ws =>
      cases hf : dget s.wsFail ws with
      | none =>
        refine ⟨{ s with wsOut := dset s.wsOut ws (((dget s.wsOut ws).getD []) ++ [fr]) },
          ?_, ?_⟩ <;>
          simp [sendPersonalMessageE, sendPersonalMessage, wsSendRaw, hg, hf]
      | some e1 =>
        cases e1
        · refine ⟨cleanupDisconnectedUser (removeActive s v) v, ?_, ?_⟩ <;>
            simp [sendPersonalMessageE, sendPersonalMessage, wsSendRaw, hg, hf]
        · refine ⟨removeActive s v, ?_, ?_⟩ <;>
            simp [sendPersonalMessageE, sendPersonalMessage, wsSendRaw, hg, hf]
  · rw [sendToChatWithAck_eq, hsess]
    exact ackFold_fails f ex ps (true, st) a wa e hwa hfa haex ha
  · rw [sendToChatWithAck_eq, hsess]
    exact ackFold_delivers f ex ps (true, st) b wb hwb hfb hbex hb

/-- Chat between users 1 and 2, where user 1's transport 100 now raises on
every send. -/
def failState : MState :=
  { chattingState with wsFail := [(100, WsExc.generic)] }

set_option maxRecDepth 10000 in
theorem c8_send_failure_isolation_witness :
    dget failState.chatSessions 0 = some [1, 2] ∧
    dget failState.active 1 = some 100 ∧
    dget failState.wsFail 100 = some WsExc.generic ∧
    dget failState.active 2 = some 101 ∧
    dget failState.wsFail 101 = none ∧
    (sendToChatWithAck failState 0 (Frame.msg 0 "hi" 1 "alice" 3) none).1 = false ∧
    Frame.msg 0 "hi" 1 "alice" 3
      ∈ ((dget (sendToChatWithAck failState 0 (Frame.msg 0 "hi" 1 "alice" 3) none).2.wsOut
          101).getD []) := by
  refine ⟨by decide, by decide, by decide, by decide, by decide, ?_, ?_⟩
  · exact (c8_send_failure_isolation failState 0 (Frame.msg 0 "hi" 1 "alice" 3) none
      [1, 2] 1 2 100 101 WsExc.generic (by decide) (by decide) (by decide) (by decide)
      (by decide) (by decide) (by decide) (by decide) (by decide)).2.1
  · exact (c8_send_failure_isolation failState 0 (Frame.msg 0 "hi" 1 "alice" 3) none
      [1, 2] 1 2 100 101 WsExc.generic (by decide) (by decide) (by decide) (by decide)
      (by decide) (by decide) (by decide) (by decide) (by decide)).2.2

/-! ## C9 — presence broadcast on connect -/

theorem inj_of_snd_nodup {m : List (Nat × Nat)} (h : (m.map Prod.snd).Nodup)
    {a b wa wb : Nat} (ha : (a, wa) ∈ m) (hb : (b, wb) ∈ m) (hab : a ≠ b) : wa ≠ wb := by
  induction m with
  | nil => cases ha
  | cons p l ih =>
    rw [List.map_cons, List.nodup_cons] at h
    rcases List.mem_cons.mp ha with hah | hat
    · rcases List.mem_cons.mp hb with hbh | hbt
      · exfalso
        apply hab
        have : (a, wa) = (b, wb) := hah.trans hbh.symm
        exact congrArg Prod.fst this
      · intro hww
        apply h.1
        rw [← hah]
        simp only
        rw [hww]
        exact List.mem_map.mpr ⟨(b, wb), hbt, rfl⟩
    · rcases List.mem_cons.mp hb with hbh | hbt
      · intro hww
        apply h.1
        rw [← hbh]
        simp only
        rw [← hww]
        exact List.mem_map.mpr ⟨(a, wa), hat, rfl⟩
      · exact ih h.2 hat hbt

theorem one_lt_length_of_two_mem {l : List (Nat × Nat)} {p q : Nat × Nat}
    (hp : p ∈ l) (hq : q ∈ l) (hne : p ≠ q) : 1 < l.length := by
  cases l with
  | nil => cases hp
  | cons a l2 =>
    cases l2 with
    | nil =>
      rw [List.mem_singleton] at hp hq
      exact absurd (hp.trans hq.symm) hne
    | cons b l3 =>
      simp only [List.length_cons]
      omega

theorem sendEach_wsOut_other (f : Frame) (u : Nat) (recips : List Nat) :
    ∀ (st : MState) (w : Nat), st.wsFail = [] →
    (∀ v wv, v ∈ recips → v ≠ u → dget st.active v = some wv → wv ≠ w) →
    dget (sendEach st f u recips).wsOut w = dget st.wsOut w := by
  induction recips with
  | nil =>
    intro st w _ _
    rfl
  | cons r rs ih =>
    intro st w hfail hvne
    rw [sendEach_cons]
    by_cases hr : (r == u) = true
    · rw [if_pos hr]
      exact ih st w hfail (fun v wv hv => hvne v wv (List.mem_cons_of_mem r hv))
    · rw [if_neg hr]
      have hru : r ≠ u := by simpa using hr
      cases hg : dget st.active r with
      | none =>
        have heq : sendPersonalMessage st f r = st := by simp [sendPersonalMessage, hg]
        rw [heq]
        exact ih st w hfail (fun v wv hv => hvne v wv (List.mem_cons_of_mem r hv))
      | some wr =>
        have hfr : dget st.wsFail wr = none := by rw [hfail]; rfl
        have heq := sendPersonalMessage_ok_eq st f r wr hg hfr
        rw [heq]
        have hwr : wr ≠ w := hvne r wr (List.mem_cons_self r rs) hru hg
        rw [ih { st with wsOut := dset st.wsOut wr (((dget st.wsOut wr).getD []) ++ [f]) }
          w hfail (fun v wv hv hvu hav => hvne v wv (List.mem_cons_of_mem r hv) hvu hav)]
        show dget (dset st.wsOut wr (((dget st.wsOut wr).getD []) ++ [f])) w = dget st.wsOut w
        exact dget_dset_ne _ _ _ _ (Ne.symm hwr)

theorem sendEach_wsOut_target (f : Frame) (u : Nat) (recips : List Nat) :
    ∀ (st : MState) (v wv : Nat), st.wsFail = [] →
    v ∈ recips → v ≠ u → dget st.active v = some wv →
    recips.Nodup →
    (∀ r wr, r ∈ recips → r ≠ u → r ≠ v → dget st.active r = some wr → wr ≠ wv) →
    dget (sendEach st f u recips).wsOut wv
      = some (((dget st.wsOut wv).getD []) ++ [f]) := by
  induction recips with
  | nil =>
    intro st v wv _ hv
    cases hv
  | cons r rs ih =>
    intro st v wv hfail hvin hvu hva hnd hinj
    rw [sendEach_cons]
    by_cases hr : (r == u) = true
    · rw [if_pos hr]
      have hru : r = u := by simpa using hr
      have hvr : v ≠ r := by rw [hru]; exact hvu
      have hvin2 : v ∈ rs := by
        rcases List.mem_cons.mp hvin with h | h
        · exact absurd h hvr
        · exact h
      exact ih st v wv hfail hvin2 hvu hva (List.nodup_cons.mp hnd).2
        (fun r2 wr h2 => hinj r2 wr (List.mem_cons_of_mem _ h2))
    · rw [if_neg hr]
      have hru : r ≠ u := by simpa using hr
      by_cases hrv : r = v
      · subst hrv
        have hfr : dget st.wsFail wv = none := by rw [hfail]; rfl
        have heq := sendPersonalMessage_ok_eq st f r wv hva hfr
        rw [heq]
        have hnotin : r ∉ rs := (List.nodup_cons.mp hnd).1
        rw [sendEach_wsOut_other f u rs
          { st with wsOut := dset st.wsOut wv (((dget st.wsOut wv).getD []) ++ [f]) }
          wv hfail (fun v2 wv2 hv2 hv2u hav2 =>
            hinj v2 wv2 (List.mem_cons_of_mem _ hv2) hv2u
              (fun hc => hnotin (hc ▸ hv2)) hav2)]
        show dget (dset st.wsOut wv (((dget st.wsOut wv).getD []) ++ [f])) wv = _
        rw [dget_dset_self]
      · have hvin2 : v ∈ rs := by
          rcases List.mem_cons.mp hvin with h | h
          · exact absurd h (Ne.symm hrv)
          · exact h
        cases hg : dget st.active r with
        | none =>
          have heq : sendPersonalMessage st f r = st := by simp [sendPersonalMessage, hg]
          rw [heq]
          exact ih st v wv hfail hvin2 hvu hva (List.nodup_cons.mp hnd).2
            (fun r2 wr h2 => hinj r2 wr (List.mem_cons_of_mem _ h2))
        | some wr =>
          have hfr : dget st.wsFail wr = none := by rw [hfail]; rfl
          have heq := sendPersonalMessage_ok_eq st f r wr hg hfr
          rw [heq]
          have hwrv : wr ≠ wv := hinj r wr (List.mem_cons_self r rs) hru hrv hg
          rw [ih { st with wsOut := dset st.wsOut wr (((dget st.wsOut wr).getD []) ++ [f]) }
            v wv hfail hvin2 hvu hva (List.nodup_cons.mp hnd).2
            (fun r2 wr2 h2 h2u h2v hav2 =>
              hinj r2 wr2 (List.mem_cons_of_mem _ h2) h2u h2v hav2)]
          show (some ((((dget (dset st.wsOut wr (((dget st.wsOut wr).getD []) ++ [f])) wv).getD [])) ++ [f]) : Option (List Frame))
            = some (((dget st.wsOut wv).getD []) ++ [f])
          rw [dget_dset_ne _ _ _ _ (Ne.symm hwrv)]

/-- C9: on the connect broadcast, the connecting identity's transport receives
exactly one presence snapshot frame whose users are precisely the other
currently-online identities (never the connecting identity itself), and every
other online identity's transport receives exactly one single-entry presence
delta frame announcing the arrival. -/
theorem c9_presence_broadcast (st : MState) (u wu : Nat) (dn : String)
    (hu : dget st.active u = some wu)
    (hfail : st.wsFail = [])
    (hnd : (dkeys st.active).Nodup)
    (hws : (st.active.map Prod.snd).Nodup)
    (hsub : ∀ v ∈ dkeys st.active, v ∈ dkeys st.userInfo) :
    (dget (broadcastPresenceUpdate st "connect" u dn).wsOut wu
      = some (((dget st.wsOut wu).getD [])
          ++ [Frame.presence (presenceSnapshot st u) "connect"])) ∧
    (∀ v, v ∈ (presenceSnapshot st u).map (fun p => p.1)
        ↔ (dmem st.active v = true ∧ v ≠ u)) ∧
    (∀ v wv, dget st.active v = some wv → v ≠ u →
      dget (broadcastPresenceUpdate st "connect" u dn).wsOut wv
        = some (((dget st.wsOut wv).getD [])
            ++ [Frame.presence [(u, dn, true)] "connect"])) := by
  have hfu : dget st.wsFail wu = none := by rw [hfail]; rfl
  have hsend := sendPersonalMessage_ok_eq st
    (.presence (presenceSnapshot st u) "connect") u wu hu hfu
  have hinjP : ∀ a b wa2 wb2, dget st.active a = some wa2 →
      dget st.active b = some wb2 → a ≠ b → wa2 ≠ wb2 := by
    intro a2 b2 wa2 wb2 ha2 hb2 hne
    exact inj_of_snd_nodup hws (mem_of_dget ha2) (mem_of_dget hb2) hne
  have hconn : (("connect" : String) == "connect") = true := by decide
  refine ⟨?_, ?_, ?_⟩
  · simp only [broadcastPresenceUpdate, if_pos hconn, hsend]
    split
    · rw [sendEach_wsOut_other (.presence [(u, dn, true)] "connect") u (dkeys st.active)
        { st with wsOut := dset st.wsOut wu (((dget st.wsOut wu).getD [])
          ++ [Frame.presence (presenceSnapshot st u) "connect"]) } wu hfail
        (fun v wv hv hvu hav => hinjP v u wv wu hav hu hvu)]
      show dget (dset st.wsOut wu (((dget st.wsOut wu).getD [])
        ++ [Frame.presence (presenceSnapshot st u) "connect"])) wu = _
      rw [dget_dset_self]
    · show dget (dset st.wsOut wu (((dget st.wsOut wu).getD [])
        ++ [Frame.presence (presenceSnapshot st u) "connect"])) wu = _
      rw [dget_dset_self]
  · intro v
    constructor
    · intro hvmem
      obtain ⟨el, hel, helv⟩ := List.mem_map.mp hvmem
      obtain ⟨p, hp, hcond⟩ := List.mem_filterMap.mp hel
      by_cases hc : (dmem st.active p.1 && !(p.1 == u)) = true
      · rw [if_pos hc] at hcond
        injection hcond with hcond
        subst hcond
        simp only at helv
        subst helv
        simp only [Bool.and_eq_true, Bool.not_eq_true'] at hc
        refine ⟨hc.1, ?_⟩
        intro hpu
        rw [hpu] at hc
        simp at hc
      · rw [if_neg hc] at hcond
        cases hcond
    · rintro ⟨hvact, hvu⟩
      have hvk : v ∈ dkeys st.active := dmem_eq_true_iff.mp hvact
      have hvui : v ∈ dkeys st.userInfo := hsub v hvk
      have hvm : (dget st.userInfo v).isSome = true := dget_isSome_iff.mpr hvui
      obtain ⟨name, hname⟩ := Option.isSome_iff_exists.mp hvm
      refine List.mem_map.mpr ⟨(v, name, true), ?_, rfl⟩
      refine List.mem_filterMap.mpr ⟨(v, name), mem_of_dget hname, ?_⟩
      rw [if_pos]
      simp only [Bool.and_eq_true, Bool.not_eq_true']
      exact ⟨hvact, by simpa using hvu⟩
  · intro v wv hv hvu
    simp only [broadcastPresenceUpdate, if_pos hconn, hsend]
    split
    · rw [sendEach_wsOut_target (.presence [(u, dn, true)] "connect") u (dkeys st.active)
        { st with wsOut := dset st.wsOut wu (((dget st.wsOut wu).getD [])
          ++ [Frame.presence (presenceSnapshot st u) "connect"]) } v wv hfail
        (mem_dkeys_of_dget hv) hvu hv hnd
        (fun r wr hr hru hrv har => hinjP r v wr wv har hv hrv)]
      have hwvu : wv ≠ wu := hinjP v u wv wu hv hu hvu
      show (some ((((dget (dset st.wsOut wu (((dget st.wsOut wu).getD [])
          ++ [Frame.presence (presenceSnapshot st u) "connect"])) wv).getD []))
          ++ [Frame.presence [(u, dn, true)] "connect"]) : Option (List Frame)) = _
      rw [dget_dset_ne _ _ _ _ hwvu]
    · rename_i hguard
      exfalso
      apply hguard
      have h1 : (u, wu) ∈ st.active := mem_of_dget hu
      have h2 : (v, wv) ∈ st.active := mem_of_dget hv
      have hne : (u, wu) ≠ (v, wv) := by
        intro hc
        exact hvu (congrArg Prod.fst hc).symm
      exact one_lt_length_of_two_mem h1 h2 hne

set_option maxRecDepth 10000 in
theorem c9_presence_broadcast_witness :
    dget (broadcastPresenceUpdate twoUserState "connect" 2 "bob").wsOut 101
      = some (((dget twoUserState.wsOut 101).getD [])
          ++ [Frame.presence (presenceSnapshot twoUserState 2) "connect"]) :=
  (c9_presence_broadcast twoUserState 2 101 "bob" (by decide) (by decide) (by decide)
    (by decide) (by decide)).1

/-! ## C7 — no active-chat pointer: NOT_IN_CHAT or auto-pair -/

theorem sendPersonalMessage_core (st : MState) (f : Frame) (v : Nat)
    (hfail : st.wsFail = []) :
    (sendPersonalMessage st f v).chatSessions = st.chatSessions ∧
    (sendPersonalMessage st f v).userChats = st.userChats ∧
    (sendPersonalMessage st f v).active = st.active ∧
    (sendPersonalMessage st f v).wsFail = [] := by
  cases hg : dget st.active v with
  | none =>
    have heq : sendPersonalMessage st f v = st := by simp [sendPersonalMessage, hg]
    rw [heq]
    exact ⟨rfl, rfl, rfl, hfail⟩
  | some w =>
    have hf : dget st.wsFail w = none := by rw [hfail]; rfl
    rw [sendPersonalMessage_ok_eq st f v w hg hf]
    exact ⟨rfl, rfl, rfl, hfail⟩

theorem ackFold_core (f : Frame) (ex : Option Nat) (ps : List Nat) :
    ∀ (b : Bool) (s : MState), s.wsFail = [] →
    ((ps.foldl (ackFoldStep f ex) (b, s)).2.chatSessions = s.chatSessions ∧
     (ps.foldl (ackFoldStep f ex) (b, s)).2.userChats = s.userChats ∧
     (ps.foldl (ackFoldStep f ex) (b, s)).2.active = s.active ∧
     (ps.foldl (ackFoldStep f ex) (b, s)).2.wsFail = []) := by
  induction ps with
  | nil => exact fun b s h => ⟨rfl, rfl, rfl, h⟩
  | cons v vs ih =>
    intro b s h
    rw [List.foldl_cons]
    by_cases hv : (some v == ex) = true
    · have hstep : ackFoldStep f ex (b, s) v = (b, s) := by
        unfold ackFoldStep
        rw [if_pos hv]
      rw [hstep]
      exact ih b s h
    · have hstep : ackFoldStep f ex (b, s) v
          = (b && dmem (sendPersonalMessage s f v).active v, sendPersonalMessage s f v) := by
        unfold ackFoldStep
        rw [if_neg hv]
      rw [hstep]
      obtain ⟨h1, h2, h3, h4⟩ := sendPersonalMessage_core s f v h
      obtain ⟨g1, g2, g3, g4⟩ := ih (b && dmem (sendPersonalMessage s f v).active v)
        (sendPersonalMessage s f v) h4
      exact ⟨g1.trans h1, g2.trans h2, g3.trans h3, g4⟩

theorem handleChatMessageBody_success (st : MState) (u c : Nat) (content : String)
    (now : Int) (ps : List Nat)
    (hfail : st.wsFail = [])
    (hsess : dget st.chatSessions c = some ps) (hups : u ∈ ps)
    (hne : content.isEmpty = false) (hlen : content.length ≤ maxMessageLength) :
    (handleChatMessageBody st u c (some content) now).1 = none ∧
    (handleChatMessageBody st u c (some content) now).2.chatSessions = st.chatSessions ∧
    (handleChatMessageBody st u c (some content) now).2.userChats = st.userChats ∧
    ∀ b wb, b ∈ ps → b ≠ u → dget st.active b = some wb →
      ∃ mid sn, Frame.msg mid content u sn now
        ∈ ((dget (handleChatMessageBody st u c (some content) now).2.wsOut wb).getD []) := by
  have hmem : dmem st.chatSessions c = true := by unfold dmem; rw [hsess]; rfl
  have hcon : ps.contains u = true := by simpa using hups
  have hne' : ¬(content.isEmpty = true) := by simp [hne]
  have hnlt : ¬(maxMessageLength < content.length) := Nat.not_lt.mpr hlen
  have heq : handleChatMessageBody st u c (some content) now
      = (none,
         sendPersonalMessage
           (sendToChatWithAck { st with nextMsg := st.nextMsg + 1 } c
             (Frame.msg st.nextMsg content u ((dget st.userInfo u).getD "Unknown") now)
             (some u)).2
           (Frame.msgAck st.nextMsg
             (if (sendToChatWithAck { st with nextMsg := st.nextMsg + 1 } c
               (Frame.msg st.nextMsg content u ((dget st.userInfo u).getD "Unknown") now)
               (some u)).1 then "delivered" else "pending") now)
           u) := by
    simp only [handleChatMessageBody]
    rw [if_pos hmem, hsess]
    simp only [Option.getD_some]
    rw [if_pos hcon, if_neg hne', if_neg hnlt]
  rw [heq]
  have hfold : sendToChatWithAck { st with nextMsg := st.nextMsg + 1 } c
        (Frame.msg st.nextMsg content u ((dget st.userInfo u).getD "Unknown") now) (some u)
      = ps.foldl (ackFoldStep
          (Frame.msg st.nextMsg content u ((dget st.userInfo u).getD "Unknown") now)
          (some u)) (true, { st with nextMsg := st.nextMsg + 1 }) := by
    rw [sendToChatWithAck_eq]
    rw [show dget ({ st with nextMsg := st.nextMsg + 1 } : MState).chatSessions c
      = some ps from hsess]
  obtain ⟨k1, k2, k3, k4⟩ := ackFold_core
    (Frame.msg st.nextMsg content u ((dget st.userInfo u).getD "Unknown") now)
    (some u) ps true { st with nextMsg := st.nextMsg + 1 } hfail
  refine ⟨rfl, ?_, ?_, ?_⟩
  · have hc := (sendPersonalMessage_core
      (sendToChatWithAck { st with nextMsg := st.nextMsg + 1 } c
        (Frame.msg st.nextMsg content u ((dget st.userInfo u).getD "Unknown") now)
        (some u)).2
      (Frame.msgAck st.nextMsg
        (if (sendToChatWithAck { st with nextMsg := st.nextMsg + 1 } c
          (Frame.msg st.nextMsg content u ((dget st.userInfo u).getD "Unknown") now)
          (some u)).1 then "delivered" else "pending") now)
      u (by rw [hfold]; exact k4)).1
    rw [hc, hfold]
    exact k1
  · have hc := (sendPersonalMessage_core
      (sendToChatWithAck { st with nextMsg := st.nextMsg + 1 } c
        (Frame.msg st.nextMsg content u ((dget st.userInfo u).getD "Unknown") now)
        (some u)).2
      (Frame.msgAck st.nextMsg
        (if (sendToChatWithAck { st with nextMsg := st.nextMsg + 1 } c
          (Frame.msg st.nextMsg content u ((dget st.userInfo u).getD "Unknown") now)
          (some u)).1 then "delivered" else "pending") now)
      u (by rw [hfold]; exact k4)).2.1
    rw [hc, hfold]
    exact k2
  · intro b wb hbps hbu hb
    have hdel := ackFold_delivers
      (Frame.msg st.nextMsg content u ((dget st.userInfo u).getD "Unknown") now)
      (some u) ps (true, { st with nextMsg := st.nextMsg + 1 }) b wb hb
      (by rw [hfail]; rfl) (by simp [hbu]) hbps
    refine ⟨st.nextMsg, (dget st.userInfo u).getD "Unknown", ?_⟩
    apply (sendPersonalMessage_facts _ _ u).2.2.1
    rw [hfold]
    exact hdel

set_option maxRecDepth 10000 in
/-- C7: when the sender has no active-chat pointer, handling a well-formed MSG
frame returns the NOT_IN_CHAT error iff no other identity is online; otherwise
the handler pairs the sender with an online peer into a chat session holding
both, sets the sender's pointer to it, and routes the message frame to that
peer's transport. -/
theorem c7_no_chat_auto_pair (st : MState) (u : Nat) (content : String) (now : Int)
    (hptr : dget st.userChats u = none)
    (hi : ChatInv st)
    (hfail : st.wsFail = [])
    (hne : content.isEmpty = false)
    (hlen : content.length ≤ maxMessageLength) :
    ((∀ v ∈ dkeys st.active, v = u) →
      handleChatMessage st u (some content) now
        = (some (.err "NOT_IN_CHAT" "No other users online to chat with"), st)) ∧
    ((∃ q ∈ dkeys st.active, q ≠ u) →
      (handleChatMessage st u (some content) now).1 = none ∧
      ∃ other wo c ps,
        dget st.active other = some wo ∧ other ≠ u ∧
        dget (handleChatMessage st u (some content) now).2.chatSessions c = some ps ∧
        u ∈ ps ∧ other ∈ ps ∧
        dget (handleChatMessage st u (some content) now).2.userChats u = some c ∧
        (∃ mid sn, Frame.msg mid content u sn now
          ∈ ((dget (handleChatMessage st u (some content) now).2.wsOut wo).getD []))) := by
  constructor
  · intro hall
    have hfind : (dkeys st.active).find? (fun v => !(v == u)) = none := by
      rw [List.find?_eq_none]
      intro v hv
      simp [hall v hv]
    simp only [handleChatMessage, hptr, hfind]
  · rintro ⟨q, hq, hqu⟩
    cases hfind : (dkeys st.active).find? (fun v => !(v == u)) with
    | none =>
      exfalso
      have h := List.find?_eq_none.mp hfind q hq
      simp at h
      exact hqu h
    | some other =>
      have hom : other ∈ dkeys st.active := List.mem_of_find?_eq_some hfind
      have hone : other ≠ u := by
        have h := List.find?_some hfind
        simpa using h
      have heq : handleChatMessage st u (some content) now
          = handleChatMessageBody (createOrGetChat st u other).2 u
              (createOrGetChat st u other).1 (some content) now := by
        simp only [handleChatMessage, hptr, hfind]
      obtain ⟨hi2, ⟨ps, hps, hups, hops⟩, hucu, hoco⟩ := createOrGetChat_spec st u other hi
      have henv := createOrGetChat_env st u other
      have hfail2 : (createOrGetChat st u other).2.wsFail = [] := henv.2.2.1.trans hfail
      obtain ⟨h1, h2, h3, h4⟩ := handleChatMessageBody_success (createOrGetChat st u other).2
        u (createOrGetChat st u other).1 content now ps hfail2 hps hups hne hlen
      have hwos : (dget st.active other).isSome = true := dget_isSome_iff.mpr hom
      obtain ⟨wo, hwo⟩ := Option.isSome_iff_exists.mp hwos
      have hwo2 : dget (createOrGetChat st u other).2.active other = some wo := by
        rw [henv.1]
        exact hwo
      rw [heq]
      refine ⟨h1, other, wo, (createOrGetChat st u other).1, ps, hwo, hone, ?_, hups, hops,
        ?_, ?_⟩
      · rw [h2]
        exact hps
      · rw [h3]
        exact hucu
      · exact h4 other wo hops hone hwo2

set_option maxRecDepth 10000 in
theorem c7_no_chat_auto_pair_witness :
    (handleChatMessage twoUserState 1 (some "hi") 3).1 = none :=
  ((c7_no_chat_auto_pair twoUserState 1 "hi" 3 (by decide)
    (chatInv_of_reachable reachable_twoUserState) (by decide) (by decide) (by decide)).2
    ⟨2, by decide, by decide⟩).1

/-! ## C6 — opening a chat twice is idempotent -/

/-- C6: from any reachable manager state, opening a chat between two distinct
online identities and then opening it again — in the same or the opposite
direction — yields the same chat identifier both times, and the second open
leaves the chat-session map unchanged (no duplicate session for the pair). -/
theorem c6_open_chat_idempotent (st : MState) (A B wA wB : Nat) (dn1 dn2 : String)
    (hreach : Reachable st) (hAB : A ≠ B)
    (hA : dget st.active A = some wA) (hB : dget st.active B = some wB)
    (hfA : dget st.wsFail wA = none) (hfB : dget st.wsFail wB = none) :
    ∃ x, (handleOpenChat st A B dn1).1 = .opened x ∧
      (handleOpenChat (handleOpenChat st A B dn1).2 A B dn2).1 = .opened x ∧
      (handleOpenChat (handleOpenChat st A B dn1).2 B A dn2).1 = .opened x ∧
      (handleOpenChat (handleOpenChat st A B dn1).2 A B dn2).2.chatSessions
        = (handleOpenChat st A B dn1).2.chatSessions ∧
      (handleOpenChat (handleOpenChat st A B dn1).2 B A dn2).2.chatSessions
        = (handleOpenChat st A B dn1).2.chatSessions := by
  have hi := chatInv_of_reachable hreach
  have htB : dmem st.active B = true := by unfold dmem; rw [hB]; rfl
  obtain ⟨hi1, c, ps, hop1, hcs1, hAps, hBps, hptr⟩ := handleOpenChat_spec st A B dn1 hi htB
  have hokA : sendOk st A := by
    intro w hw
    rw [hw] at hA
    injection hA with hA2
    rw [← hA2] at hfA
    exact hfA
  have hokB : sendOk st B := by
    intro w hw
    rw [hw] at hB
    injection hB with hB2
    rw [← hB2] at hfB
    exact hfB
  obtain ⟨hact1, hfail1⟩ := handleOpenChat_env st A B dn1 hi hokA hokB
  have htB1 : dmem (handleOpenChat st A B dn1).2.active B = true := by
    unfold dmem
    rw [hact1, hB]
    rfl
  have htA1 : dmem (handleOpenChat st A B dn1).2.active A = true := by
    unfold dmem
    rw [hact1, hA]
    rfl
  obtain ⟨hop2, hsess2⟩ := handleOpenChat_existing (handleOpenChat st A B dn1).2 A B dn2
    hi1 htB1 hAB c ps hcs1 hAps hBps
  obtain ⟨hop3, hsess3⟩ := handleOpenChat_existing (handleOpenChat st A B dn1).2 B A dn2
    hi1 htA1 (Ne.symm hAB) c ps hcs1 hBps hAps
  exact ⟨c, hop1, hop2, hop3, hsess2, hsess3⟩

set_option maxRecDepth 10000 in
theorem c6_open_chat_idempotent_witness :
    ∃ x, (handleOpenChat twoUserState 1 2 "bob").1 = OpenOut.opened x ∧
      (handleOpenChat (handleOpenChat twoUserState 1 2 "bob").2 1 2 "bob").1
        = OpenOut.opened x ∧
      (handleOpenChat (handleOpenChat twoUserState 1 2 "bob").2 2 1 "alice").1
        = OpenOut.opened x ∧
      (handleOpenChat (handleOpenChat twoUserState 1 2 "bob").2 1 2 "bob").2.chatSessions
        = (handleOpenChat twoUserState 1 2 "bob").2.chatSessions ∧
      (handleOpenChat (handleOpenChat twoUserState 1 2 "bob").2 2 1 "alice").2.chatSessions
        = (handleOpenChat twoUserState 1 2 "bob").2.chatSessions :=
  c6_open_chat_idempotent twoUserState 1 2 100 101 "bob" "alice" reachable_twoUserState
    (by decide) (by decide) (by decide) (by decide) (by decide)

end FastChat
